import Mathlib

/-!
Verification of the logic-grid puzzle generator (`logicgrid/data/generate.py`)
and the Sudoku loader/validator (`sudoku/data/load.py`).

The Python code is shallowly embedded: dictionaries become association
lists (Python dicts preserve insertion order), the CSP solver's
`getSolutions` call is embedded as an explicit enumeration of all
assignments filtered by the translated constraints, exceptions become
`Except String`, and every use of the `random` module becomes an explicit
parameter (a sample per category, a shuffled pool, a stream of pick
indices), so that theorems quantify over all possible random draws.
-/

namespace LogicGrid

/-- Categories of a puzzle template: an association list from category
name to its list of values, mirroring the Python dict
`template["categories"]` (insertion order preserved). -/
abbrev Cats := List (String × List String)

/-- A structured clue, mirroring the Python dict
`{"type": ..., "items": [...]}`. -/
structure Clue where
  type : String
  items : List String
deriving DecidableEq, Repr

/-- Ground truth, mirroring the Python dict
`{base_item: {category: value}}` built by `create_ground_truth`. -/
abbrev GroundTruth := List (String × List (String × String))

/-- Dictionary lookup `categories[name]` returning `none` on a missing key
(the Python `KeyError` case is handled at each use site). -/
def lookupCat (cats : Cats) (name : String) : Option (List String) :=
  (cats.find? (fun c => c.1 == name)).map (·.2)

/-- Lookup with a default, for call sites where the key is known present. -/
def lookupCatD (cats : Cats) (name : String) : List String :=
  (lookupCat cats name).getD []

/-- The non-base categories, mirroring
`{k: v for k, v in categories.items() if k != base_category}` and
`[k for k in categories if k != base_category]`. -/
def otherCats (cats : Cats) (base : String) : Cats :=
  cats.filter (fun c => c.1 != base)

/-- Embeds `get_category_name` of the source: returns the first category
whose value list contains `item`, else `none`. -/
def get_category_name (item : String) (cats : Cats) : Option String :=
  (cats.find? (fun c => c.2.contains item)).map (·.1)

/-- Embeds `find_base_and_other_item` of the source: folds over the items,
sending each item found in the base category's list to the first slot and
every other item to the second slot, later items overwriting earlier ones. -/
def find_base_and_other_item (items : List String) (baseDom : List String) :
    Option String × Option String :=
  items.foldl
    (fun acc item =>
      if baseDom.contains item then (some item, acc.2) else (acc.1, some item))
    (none, none)

/-- Embeds `create_ground_truth`: for each base item (row `i`) and each
non-base category (column `j`), the assigned value is element `i` of the
`random.sample` drawn for that category.  The samples are an explicit
parameter, one per non-base category in order. -/
def create_ground_truth (cats : Cats) (base : String)
    (samples : List (List String)) : GroundTruth :=
  let baseItems := lookupCatD cats base
  let others := otherCats cats base
  baseItems.zip ((List.range baseItems.length).map (fun i =>
    (others.zip samples).map (fun cs => (cs.1.1, cs.2.getD i ""))))

/-- Lookup of the row of a base item in a ground truth,
mirroring `ground_truth[base_item]`. -/
def gtRow (gt : GroundTruth) (b : String) : List (String × String) :=
  ((gt.find? (fun r => r.1 == b)).map (·.2)).getD []

/-- Value assigned by a ground truth to a base item in a category,
mirroring `ground_truth[base_item][cat_name]`. -/
def gtValue (gt : GroundTruth) (b cat : String) : String :=
  (((gtRow gt b).find? (fun cv => cv.1 == cat)).map (·.2)).getD ""

/-- All ordered pairs `(l[i], l[j])` with `i < j`, mirroring the double
loop over `solved_items_list` in `generate_all_possible_clues`. -/
def pairsOf : List String → List (String × String)
  | [] => []
  | x :: xs => xs.map (fun y => (x, y)) ++ pairsOf xs

/-- Embeds `generate_all_possible_clues`: one positive clue per assigned
value, negative clues for every other value of the same category, and one
link clue per pair of assigned values of the same base item.  The Python
function deduplicates this list through a set of JSON dumps; theorems use
only list membership, which the deduplication and the later shuffle
preserve. -/
def generate_all_possible_clues (gt : GroundTruth) (cats : Cats)
    (base : String) : List Clue :=
  let baseItems := lookupCatD cats base
  baseItems.flatMap (fun b =>
    let sol := gtRow gt b
    (sol.flatMap (fun cv =>
      ⟨"positive", [b, cv.2]⟩ ::
        ((lookupCatD cats cv.1).filter (fun o => o != cv.2)).map
          (fun o => ⟨"negative", [b, o]⟩)))
    ++ (pairsOf (sol.map (·.2))).map (fun p => ⟨"link", [p.1, p.2]⟩))

/-- Index of a string in a list (first match), used to address the CSP
variable belonging to a base item or a category. -/
def strIdx (l : List String) (x : String) : Nat :=
  l.findIdx (fun y => y == x)

/-- A candidate solution of the CSP: one row per base item (in base-item
order), each row holding one value per non-base category (in category
order).  This is the assignment the solver's solution dict denotes. -/
abbrev Grid := List (List String)

/-- Value of the CSP variable `f"{b}_{cat}"` in an assignment. -/
def cellVal (baseItems otherNames : List String) (g : Grid)
    (b cat : String) : String :=
  (g.getD (strIdx baseItems b) []).getD (strIdx otherNames cat) ""

/-- Boolean pairwise-distinctness check, the semantics of the solver's
`AllDifferentConstraint`. -/
def distinctB : List String → Bool
  | [] => true
  | x :: xs => !xs.contains x && distinctB xs

/-- Decides whether translating a clue into constraints raises an
exception in the source: a positive or negative clue whose non-base item
belongs to no category reaches `variables[base_item][None]` (`KeyError`),
and a link clue whose item list does not have exactly two elements fails
the unpacking `item1, item2 = items` (`ValueError`). -/
def clueRaises (cats : Cats) (baseDom : List String) (clue : Clue) : Bool :=
  if clue.type == "positive" || clue.type == "negative" then
    match find_base_and_other_item clue.items baseDom with
    | (some _, some o) => (get_category_name o cats).isNone
    | _ => false
  else if clue.type == "link" then
    clue.items.length != 2
  else false

/-- Satisfaction of the constraints a single clue contributes, on a
candidate assignment.  Mirrors the constraint lambdas of
`verify_solution`: positive is `v == i`, negative is `v != i`, a link adds
for every base item the two implications `(v1 != i1) or (v2 == i2)` and
`(v2 != i2) or (v1 == i1)`.  Clues the source skips (no base item found,
link with an unknown or base-category item) contribute no constraint and
so hold vacuously. -/
def clueSat (cats : Cats) (base : String) (baseItems otherNames : List String)
    (g : Grid) (clue : Clue) : Bool :=
  if clue.type == "positive" then
    match find_base_and_other_item clue.items baseItems with
    | (some b, some o) =>
      match get_category_name o cats with
      | some cat => cellVal baseItems otherNames g b cat == o
      | none => true
    | _ => true
  else if clue.type == "negative" then
    match find_base_and_other_item clue.items baseItems with
    | (some b, some o) =>
      match get_category_name o cats with
      | some cat => cellVal baseItems otherNames g b cat != o
      | none => true
    | _ => true
  else if clue.type == "link" then
    match clue.items with
    | [i1, i2] =>
      match get_category_name i1 cats, get_category_name i2 cats with
      | some c1, some c2 =>
        if c1 == base || c2 == base then true
        else baseItems.all (fun b =>
          (!(cellVal baseItems otherNames g b c1 == i1)
              || (cellVal baseItems otherNames g b c2 == i2))
          && (!(cellVal baseItems otherNames g b c2 == i2)
              || (cellVal baseItems otherNames g b c1 == i1)))
      | _, _ => true
    | _ => true
  else true

/-- The bijection constraints: for each non-base category the values
chosen across the base items are pairwise distinct
(`AllDifferentConstraint` per category). -/
def allDifferentOk (otherCount : Nat) (g : Grid) : Bool :=
  (List.range otherCount).all (fun j =>
    distinctB (g.map (fun r => r.getD j "")))

/-- The full assignment space the solver enumerates: every choice of one
domain value per `(base item, category)` variable. -/
def allGrids (baseItems : List String) (others : Cats) : List Grid :=
  (baseItems.map (fun _ => (others.map (·.2)).sections)).sections

/-- Embeds `verify_solution`: builds the CSP over one variable per
`(base item, non-base category)` pair and returns every assignment
satisfying the all-different constraints and all clue constraints.  A
missing base category or a clue whose translation raises yields an
error, as the Python raises `KeyError`/`ValueError`. -/
def verify_solution (cats : Cats) (base : String) (clues : List Clue) :
    Except String (List Grid) :=
  match lookupCat cats base with
  | none => .error "KeyError: base category not in categories"
  | some baseItems =>
    let others := otherCats cats base
    let otherNames := others.map (·.1)
    if clues.any (clueRaises cats baseItems) then
      .error "KeyError: clue references an unknown value"
    else
      .ok ((allGrids baseItems others).filter (fun g =>
        allDifferentOk others.length g
          && clues.all (clueSat cats base baseItems otherNames g)))

/-- One iteration of the body of the clue-selection loop: pop the clue at
the drawn index from the pool, re-verify with the candidate clue added,
and keep the clue exactly when the new solution count is strictly smaller
than the current one and strictly positive.  Returns the new selected
list, the remaining pool and the new live count. -/
def selectBody (cats : Cats) (base : String) (essential pool : List Clue)
    (count : Nat) (pick : Nat) :
    Except String (List Clue × List Clue × Nat) :=
  let idx := pick % pool.length
  let clue := pool.getD idx ⟨"", []⟩
  let pool' := pool.eraseIdx idx
  let potential := essential ++ [clue]
  match verify_solution cats base potential with
  | .error e => .error e
  | .ok sols =>
    if sols.length < count && sols.length > 0 then
      .ok (potential, pool', sols.length)
    else
      .ok (essential, pool', count)

/-- The clue-selection loop of `generate_puzzle_from_template`:
`while current_solution_count > 1 and attempts < max_attempts`, breaking
when the pool is empty.  `picks` is the stream of `random.randint` draws,
indexed by the attempt number.  The loop runs the source's while loop for
up to `fuel` iterations; `generate_puzzle_from_template` passes
`fuel = max`, which suffices because every iteration increments
`attempts`.  Returns the selected clues, the final live count and the
final value of the attempt counter. -/
def selectLoop (cats : Cats) (base : String) (max : Nat) :
    Nat → Nat → List Clue → List Clue → Nat → (Nat → Nat) →
    Except String (List Clue × Nat × Nat)
  | 0, attempts, essential, _pool, count, _picks =>
    .ok (essential, count, attempts)
  | fuel + 1, attempts, essential, pool, count, picks =>
    if count > 1 && attempts < max then
      if pool.isEmpty then .ok (essential, count, attempts)
      else
        match selectBody cats base essential pool count (picks attempts) with
        | .error e => .error e
        | .ok (e', p', c') =>
          selectLoop cats base max fuel (attempts + 1) e' p' c' picks
    else .ok (essential, count, attempts)

/-- Embeds `translate_clue_to_natural_language`. -/
def translate_clue_to_natural_language (clue : Clue) (cats : Cats)
    (base : String) : String :=
  let bo := find_base_and_other_item clue.items (lookupCatD cats base)
  match bo with
  | (some b, o?) =>
    if clue.type == "positive" then
      b ++ " is directly associated with " ++ o?.getD "None" ++ "."
    else if clue.type == "negative" then
      b ++ " is NOT associated with " ++ o?.getD "None" ++ "."
    else if clue.type == "link" then
      match clue.items with
      | [i1, i2] =>
        "The item \x27" ++ i1 ++ "\x27 is linked to the same " ++ base
          ++ " as the item \x27" ++ i2 ++ "\x27."
      | _ => "Clue: " ++ clue.type ++ " - " ++ String.intercalate ", " clue.items
    else "Clue: " ++ clue.type ++ " - " ++ String.intercalate ", " clue.items
  | (none, _) =>
    if clue.type == "link" then
      match clue.items with
      | [i1, i2] =>
        "The item \x27" ++ i1 ++ "\x27 is linked to the same " ++ base
          ++ " as the item \x27" ++ i2 ++ "\x27."
      | _ => "Clue: " ++ clue.type ++ " - " ++ String.intercalate ", " clue.items
    else "Clue: " ++ clue.type ++ " - " ++ String.intercalate ", " clue.items

/-- Embeds `format_puzzle_for_llm`. -/
def format_puzzle_for_llm (puzzle_id : String) (cats : Cats)
    (nl_clues : List String) : String :=
  let head := "## 🧩 New Logic Grid Puzzle (ID: " ++ puzzle_id ++ ")\n\n"
    ++ "Your task is to find the correct correspondence...\n\n### Categories\n"
  let catLines := String.join (cats.map (fun c =>
    "* **" ++ c.1 ++ ":** " ++ String.intercalate ", " c.2 ++ "\n"))
  let clueLines := String.join ((nl_clues.enum).map (fun ic =>
    toString (ic.1 + 1) ++ ". " ++ ic.2 ++ "\n"))
  head ++ catLines ++ "\n### Clues\n" ++ clueLines

/-- The record `generate_puzzle_from_template` emits on success. -/
structure Puzzle where
  puzzle_id : String
  llm_prompt : String
  ground_truth_solution : GroundTruth
  structured_clues_used : List Clue
  clue_count : Nat
deriving DecidableEq, Repr

/-- Embeds `generate_puzzle_from_template`.  Randomness is explicit:
`samples` are the `random.sample` draws of `create_ground_truth`,
`shuffledPool` is the shuffled, deduplicated clue pool, `picks` is the
stream of `random.randint` draws of the selection loop.  `Except` models
an uncaught Python exception, the `Option` in the result models the
`return None` failure paths. -/
def generate_puzzle_from_template (idPref : String) (cats : Cats)
    (base : String) (samples : List (List String)) (shuffledPool : List Clue)
    (picks : Nat → Nat) (puzzle_index : Nat) :
    Except String (Option Puzzle) :=
  let ground_truth := create_ground_truth cats base samples
  match verify_solution cats base [] with
  | .error e => .error e
  | .ok initial =>
    if initial.isEmpty then
      .ok none
    else
      let maxAttempts := shuffledPool.length * 2
      match selectLoop cats base maxAttempts maxAttempts 0 [] shuffledPool
          initial.length picks with
      | .error e => .error e
      | .ok (essential, finalCount, _attempts) =>
        if finalCount != 1 then
          .ok none
        else
          let nl := essential.map
            (fun c => translate_clue_to_natural_language c cats base)
          let pid := idPref ++ "_" ++ toString puzzle_index
          .ok (some
            { puzzle_id := pid
              llm_prompt := format_puzzle_for_llm pid cats nl
              ground_truth_solution := ground_truth
              structured_clues_used := essential
              clue_count := essential.length })

/-- Embeds the dataset-generation `while` loop of the `__main__` block:
`while puzzles_generated_count < N_PUZZLES_TO_GENERATE`, each iteration
calling the generator once and incrementing the count only on a non-None
result.  `outcomes` is the stream of results of the successive generator
calls; the Boolean in the result records whether the loop has terminated
after consuming them (it terminates exactly when the count reaches `n`). -/
def main_generation_loop (n : Nat) :
    List (Option Puzzle) → Nat → Nat × Bool
  | [], generated => (generated, decide (n ≤ generated))
  | o :: rest, generated =>
    if generated < n then
      main_generation_loop n rest (generated + if o.isSome then 1 else 0)
    else (generated, true)

/-- Embeds the global configuration `N_PUZZLES_TO_GENERATE = 5`. -/
def N_PUZZLES_TO_GENERATE : Nat := 5

/-- The grid form of a ground truth: one row per base item, one value per
non-base category, read back out of the ground-truth record.  This is the
assignment the ground truth denotes in the solution space of
`verify_solution`. -/
def gridOfGroundTruth (gt : GroundTruth) (baseItems otherNames : List String) :
    Grid :=
  baseItems.map (fun b => otherNames.map (fun c => gtValue gt b c))

/-- The transposed form of the category samples: row `i` holds element `i`
of every sample.  For a ground truth built by `create_ground_truth` from
`samples` this is exactly its grid form. -/
def ground_truth_grid (n : Nat) (samples : List (List String)) : Grid :=
  (List.range n).map (fun i => samples.map (fun s => s.getD i ""))

/-- The values a ground truth assigns to one base entity, across all
non-base categories. -/
def assignedValues (gt : GroundTruth) (b : String) : List String :=
  (gtRow gt b).map (·.2)

/-- Truth of a clue under a ground truth, stated the way the
specification reads: a positive clue matches an assigned value, a
negative clue names a non-assigned value, and a link clue pairs two
values assigned to the same base entity. -/
def clue_true_under (gt : GroundTruth) (clue : Clue) : Bool :=
  if clue.type == "positive" then
    match clue.items with
    | [b, v] => (assignedValues gt b).contains v
    | _ => false
  else if clue.type == "negative" then
    match clue.items with
    | [b, v] => !((assignedValues gt b).contains v)
    | _ => false
  else if clue.type == "link" then
    match clue.items with
    | [v1, v2] => gt.any (fun r =>
        (r.2.map (·.2)).contains v1 && (r.2.map (·.2)).contains v2)
    | _ => false
  else false

/-- A tiny two-entity template exercised by the concrete witnesses. -/
def cats2 : Cats := [("P", ["A", "B"]), ("M", ["X", "Y"])]

/-- One possible draw of `random.sample` for the non-base category of
`cats2`. -/
def samplesA : List (List String) := [["X", "Y"]]

/-- The ground truth of `cats2` under the draw `samplesA`. -/
def gtA : GroundTruth := create_ground_truth cats2 "P" samplesA

/-- The synthesized clue pool for `gtA`. -/
def poolA : List Clue := generate_all_possible_clues gtA cats2 "P"

/-- A second, different draw of `random.sample` for `cats2`. -/
def samplesB : List (List String) := [["Y", "X"]]

/-- The ground truth of `cats2` under the draw `samplesB`. -/
def gtB : GroundTruth := create_ground_truth cats2 "P" samplesB

/-- The synthesized clue pool for `gtB`. -/
def poolB : List Clue := generate_all_possible_clues gtB cats2 "P"

/-- The puzzle emitted by the generator on `cats2` with the draw
`samplesA`, pool `poolA` and pick stream `0, 0, ...`. -/
def puzzleA : Puzzle :=
  match generate_puzzle_from_template "p" cats2 "P" samplesA poolA
      (fun _ => 0) 1 with
  | .ok (some p) => p
  | _ => ⟨"", "", [], [], 0⟩

end LogicGrid

namespace Sudoku

/-- Numeric value of a digit character, the embedding of Python `int(c)`
for a single digit character. -/
def charToInt (c : Char) : Nat := c.toNat - 48

/-- Embeds the grid construction
`[[int(s[i*size + j]) for j in range(size)] for i in range(size)]`. -/
def sudokuGrid (cs : List Char) (size : Nat) : List (List Nat) :=
  (List.range size).map (fun i => (List.range size).map (fun j =>
    charToInt (cs.getD (i * size + j) '0')))

/-- Embeds `len(set(row)) == size` for each row of the grid. -/
def rowsOk (g : List (List Nat)) (size : Nat) : Bool :=
  g.all (fun row => row.dedup.length == size)

/-- The column `c` of a grid, as read by the validator. -/
def colCells (g : List (List Nat)) (size c : Nat) : List Nat :=
  (List.range size).map (fun r => (g.getD r []).getD c 0)

/-- Embeds the column check of the validator. -/
def colsOk (g : List (List Nat)) (size : Nat) : Bool :=
  (List.range size).all (fun c => (colCells g size c).dedup.length == size)

/-- The block at box coordinates `(bi, bj)`, as read by the validator. -/
def boxCells (g : List (List Nat)) (box bi bj : Nat) : List Nat :=
  (List.range box).flatMap (fun i => (List.range box).map (fun j =>
    (g.getD (bi * box + i) []).getD (bj * box + j) 0))

/-- Embeds the block check of the validator. -/
def boxesOk (g : List (List Nat)) (size box : Nat) : Bool :=
  (List.range box).all (fun bi => (List.range box).all (fun bj =>
    (boxCells g box bi bj).dedup.length == size))

/-- Embeds `is_valid_sudoku_solution` of `sudoku/data/load.py`: dispatch
on the string length (81 or 16, anything else rejected), reject a
non-digit character or any `'0'`, then check that every row, column and
block holds `size` distinct values. -/
def is_valid_sudoku_solution (s : String) : Bool :=
  let cs := s.toList
  if cs.length = 81 then
    if !(cs.all Char.isDigit) || cs.contains '0' then false
    else
      let g := sudokuGrid cs 9
      rowsOk g 9 && colsOk g 9 && boxesOk g 9 3
  else if cs.length = 16 then
    if !(cs.all Char.isDigit) || cs.contains '0' then false
    else
      let g := sudokuGrid cs 4
      rowsOk g 4 && colsOk g 4 && boxesOk g 4 2
  else false

/-- States that a unit (a row, a column or a 2x2 box of a 4x4 grid) holds
exactly the values 1, 2, 3, 4, each exactly once.  This is the property
the specification ascribes to accepted 4x4 grids. -/
def unit_is_one_to_four (l : List Nat) : Bool :=
  l.length == 4 && [1, 2, 3, 4].all (fun v => l.count v == 1)

/-- States that every row, column and 2x2 box of the 4x4 grid of a
16-character string holds exactly the values 1..4, each exactly once. -/
def grid4_units_exactly_one_to_four (s : String) : Bool :=
  let g := sudokuGrid s.toList 4
  g.all (fun row => unit_is_one_to_four row)
    && (List.range 4).all (fun c => unit_is_one_to_four (colCells g 4 c))
    && (List.range 2).all (fun bi => (List.range 2).all (fun bj =>
        unit_is_one_to_four (boxCells g 2 bi bj)))

/-- Grid side length chosen by the length dispatch of `solve_sudoku`. -/
def gridSize (n : Nat) : Nat := if n = 81 then 9 else 4

/-- Box side length chosen by the length dispatch of `solve_sudoku`. -/
def boxSize (n : Nat) : Nat := if n = 81 then 3 else 2

/-- Modelled from the behaviour of the Z3 calls in `solve_sudoku`: a model
returned by the solver satisfies every asserted constraint — cell range
`1..size`, agreement with the non-zero given cells, and distinctness
inside each row, each column and each box.  The Z3 library itself is an
external collaborator; this predicate is its contract for the constraints
the source asserts. -/
def z3_model_ok (size box : Nat) (grid : List (List Nat))
    (m : Nat → Nat → Nat) : Prop :=
  (∀ i ∈ List.range size, ∀ j ∈ List.range size,
      1 ≤ m i j ∧ m i j ≤ size) ∧
  (∀ i ∈ List.range size, ∀ j ∈ List.range size,
      (grid.getD i []).getD j 0 ≠ 0 → m i j = (grid.getD i []).getD j 0) ∧
  (∀ i ∈ List.range size, ∀ j1 ∈ List.range size, ∀ j2 ∈ List.range size,
      j1 ≠ j2 → m i j1 ≠ m i j2) ∧
  (∀ j ∈ List.range size, ∀ i1 ∈ List.range size, ∀ i2 ∈ List.range size,
      i1 ≠ i2 → m i1 j ≠ m i2 j) ∧
  (∀ bi ∈ List.range box, ∀ bj ∈ List.range box,
    ∀ i1 ∈ List.range box, ∀ j1 ∈ List.range box,
      ∀ i2 ∈ List.range box, ∀ j2 ∈ List.range box,
        ¬(i1 = i2 ∧ j1 = j2) →
          m (bi * box + i1) (bj * box + j1) ≠ m (bi * box + i2) (bj * box + j2))

/-- Embeds `solve_sudoku`: dispatch on the length (a `ValueError` for an
unsupported length), then ask the solver; `oracle` is the model Z3
returns, `none` standing for `unsat`.  On `sat` the result is the
concatenation `''.join(str(model.evaluate(cells[i][j])) ...)` in row-major
order. -/
def solve_sudoku (s : String) (oracle : Option (Nat → Nat → Nat)) :
    Except String (Option String) :=
  if s.length = 81 ∨ s.length = 16 then
    let size := gridSize s.length
    match oracle with
    | some m =>
      .ok (some (String.join ((List.range size).flatMap (fun i =>
        (List.range size).map (fun j => toString (m i j))))))
    | none => .ok none
  else
    .error "ValueError: Sudoku must have 16 (4x4) or 81 (9x9) digits"

/-- A concrete 4x4 Sudoku model used by the concrete witnesses. -/
def w4 : Nat → Nat → Nat := fun i j =>
  (([[1, 2, 3, 4], [3, 4, 1, 2], [2, 1, 4, 3], [4, 3, 2, 1]]).getD i []).getD j 0

end Sudoku

namespace LogicGrid

lemma main_generation_loop_none_step (n : Nat) (rest : List (Option Puzzle))
    (g : Nat) (h : g < n) :
    main_generation_loop n (none :: rest) g = main_generation_loop n rest g := by
  simp [main_generation_loop, h]

lemma main_generation_loop_replicate_none (B g : Nat)
    (h : g < N_PUZZLES_TO_GENERATE) :
    main_generation_loop N_PUZZLES_TO_GENERATE (List.replicate B none) g
      = (g, false) := by
  induction B generalizing g with
  | zero =>
    simp [main_generation_loop, Nat.not_le.mpr h]
  | succ B ih =>
    rw [List.replicate_succ, main_generation_loop_none_step _ _ _ h]
    exact ih g h

/-- Counterexample to C5: after any number of consecutive failed
generation attempts the dataset loop of the `__main__` block has not
terminated — there is no generation budget after which a shortfall is
reported; the loop simply keeps retrying. -/
theorem generation_loop_never_reports_shortfall :
    ¬ ∃ B : Nat,
      (main_generation_loop N_PUZZLES_TO_GENERATE (List.replicate B none) 0).2
        = true := by
  rintro ⟨B, hB⟩
  rw [main_generation_loop_replicate_none B 0 (by decide)] at hB
  exact Bool.false_ne_true hB

/-- C5 (amended): the dataset loop retries a failed attempt with its state
unchanged, and it has terminated exactly when the generated count has
reached the requested count — persistent failure is retried forever, never
surfaced as a shortfall. -/
theorem generation_loop_retries_unboundedly :
    (∀ n : Nat, ∀ rest : List (Option Puzzle), ∀ g : Nat, g < n →
      main_generation_loop n (none :: rest) g = main_generation_loop n rest g)
    ∧ (∀ n : Nat, ∀ outcomes : List (Option Puzzle), ∀ g : Nat,
        ((main_generation_loop n outcomes g).2 = true
          ↔ n ≤ (main_generation_loop n outcomes g).1)) := by
  constructor
  · exact fun n rest g h => main_generation_loop_none_step n rest g h
  · intro n outcomes
    induction outcomes with
    | nil => intro g; simp [main_generation_loop]
    | cons o rest ih =>
      intro g
      by_cases h : g < n
      · simp only [main_generation_loop, if_pos h]
        exact ih _
      · simp only [main_generation_loop, if_neg h]
        simpa using Nat.le_of_not_lt h

/-- Witness for C5 (amended), at a concrete loop state. -/
theorem generation_loop_retries_unboundedly_witness :
    main_generation_loop 1 [none] 0 = main_generation_loop 1 [] 0
    ∧ ((main_generation_loop 1 [] 0).2 = true
        ↔ 1 ≤ (main_generation_loop 1 [] 0).1) :=
  ⟨generation_loop_retries_unboundedly.1 1 [] 0 (by decide),
   generation_loop_retries_unboundedly.2 1 [] 0⟩

/-- Counterexample to C3: a link clue naming a value that belongs to no
category of the template does not fail the attempt — `verify_solution`
returns the same solution list as with no clue at all, silently ignoring
the clue and solving without it. -/
theorem unknown_value_clue_not_failing_fast :
    verify_solution cats2 "P" [⟨"link", ["X", "Desconocido"]⟩]
      = .ok [[["Y"], ["X"]], [["X"], ["Y"]]]
    ∧ verify_solution cats2 "P" []
      = .ok [[["Y"], ["X"]], [["X"], ["Y"]]] :=
  ⟨rfl, rfl⟩

/-- C3 (amended): among two-item clues (the only shape the generator
produces), a clue aborts the attempt with an error exactly when it is a
positive or negative clue that pairs a base entity with an item belonging
to no category; a link clue either of whose items belongs to no category,
and a positive or negative clue neither of whose items is a base entity,
are silently skipped and solving continues exactly as if the clue were
absent. -/
theorem clue_unknown_reference_behavior (cats : Cats) (base : String)
    (baseItems : List String) (hbase : lookupCat cats base = some baseItems) :
    (∀ clues : List Clue, (∀ c ∈ clues, c.items.length = 2) →
      (verify_solution cats base clues
          = .error "KeyError: clue references an unknown value"
        ↔ ∃ c ∈ clues, (c.type = "positive" ∨ c.type = "negative")
            ∧ ∃ b o, find_base_and_other_item c.items baseItems
                = (some b, some o)
              ∧ get_category_name o cats = none))
    ∧ (∀ i1 i2 (rest : List Clue),
        get_category_name i1 cats = none ∨ get_category_name i2 cats = none →
        verify_solution cats base (⟨"link", [i1, i2]⟩ :: rest)
          = verify_solution cats base rest)
    ∧ (∀ t i1 i2 (rest : List Clue), (t = "positive" ∨ t = "negative") →
        baseItems.contains i1 = false → baseItems.contains i2 = false →
        verify_solution cats base (⟨t, [i1, i2]⟩ :: rest)
          = verify_solution cats base rest) := by
  have hverr : ∀ clues : List Clue,
      (verify_solution cats base clues
        = .error "KeyError: clue references an unknown value"
      ↔ clues.any (clueRaises cats baseItems) = true) := by
    intro clues
    unfold verify_solution
    rw [hbase]
    dsimp only
    cases hany : clues.any (clueRaises cats baseItems)
    · rw [if_neg (by simp)]
      simp
    · rw [if_pos rfl]
      simp
  have hraise_iff : ∀ c : Clue, c.items.length = 2 →
      (clueRaises cats baseItems c = true ↔
        ((c.type = "positive" ∨ c.type = "negative")
          ∧ ∃ b o, find_base_and_other_item c.items baseItems
              = (some b, some o)
            ∧ get_category_name o cats = none)) := by
    intro c hc2
    unfold clueRaises
    by_cases hpn : (c.type == "positive" || c.type == "negative") = true
    · rw [if_pos hpn]
      rw [Bool.or_eq_true, beq_iff_eq, beq_iff_eq] at hpn
      cases hf : find_base_and_other_item c.items baseItems with
      | mk fst snd =>
        cases fst with
        | none =>
          dsimp only
          constructor
          · intro h
            exact absurd h (by simp)
          · rintro ⟨-, b, o, hbo, -⟩
            exact absurd hbo (by simp)
        | some b =>
          cases snd with
          | none =>
            dsimp only
            constructor
            · intro h
              exact absurd h (by simp)
            · rintro ⟨-, b2, o2, hbo, -⟩
              exact absurd hbo (by simp)
          | some o =>
            dsimp only
            constructor
            · intro h
              refine ⟨hpn, b, o, rfl, ?_⟩
              rwa [Option.isNone_iff_eq_none] at h
            · rintro ⟨-, b2, o2, hbo, hcat⟩
              simp only [Prod.mk.injEq, Option.some.injEq] at hbo
              rw [hbo.2, hcat]
              rfl
    · rw [if_neg hpn]
      have hnot : ¬(c.type = "positive" ∨ c.type = "negative") := by
        intro hty
        apply hpn
        rcases hty with h | h <;> simp [h]
      by_cases hlk : (c.type == "link") = true
      · rw [if_pos hlk]
        constructor
        · intro h
          rw [bne_iff_ne] at h
          exact absurd hc2 h
        · rintro ⟨hty, -⟩
          exact absurd hty hnot
      · rw [if_neg hlk]
        constructor
        · intro h
          exact absurd h (by simp)
        · rintro ⟨hty, -⟩
          exact absurd hty hnot
  have hskip : ∀ (c : Clue) (rest : List Clue),
      clueRaises cats baseItems c = false →
      (∀ g, clueSat cats base baseItems
        ((otherCats cats base).map (·.1)) g c = true) →
      verify_solution cats base (c :: rest) = verify_solution cats base rest := by
    intro c rest hraise hsat
    unfold verify_solution
    rw [hbase]
    dsimp only
    rw [List.any_cons, hraise, Bool.false_or]
    cases hany : rest.any (clueRaises cats baseItems)
    · simp only [Bool.false_eq_true, if_false]
      congr 1
      refine List.filter_congr (fun g _ => ?_)
      rw [List.all_cons, hsat g, Bool.true_and]
    · simp
  refine ⟨?_, ?_, ?_⟩
  · intro clues h2
    rw [hverr clues, List.any_eq_true]
    constructor
    · rintro ⟨c, hc, hr⟩
      exact ⟨c, hc, (hraise_iff c (h2 c hc)).mp hr⟩
    · rintro ⟨c, hc, hcond⟩
      exact ⟨c, hc, (hraise_iff c (h2 c hc)).mpr hcond⟩
  · intro i1 i2 rest hcat
    apply hskip
    · simp [clueRaises]
    · intro g
      rcases hcat with h | h
      · cases hg2 : get_category_name i2 cats <;> simp [clueSat, h, hg2]
      · cases hg1 : get_category_name i1 cats <;> simp [clueSat, hg1, h]
  · intro t i1 i2 rest ht h1 h2
    have h1x : i1 ∉ baseItems := by simpa using h1
    have h2x : i2 ∉ baseItems := by simpa using h2
    have hfind : find_base_and_other_item [i1, i2] baseItems
        = (none, some i2) := by
      simp [find_base_and_other_item, h1x, h2x]
    apply hskip
    · rcases ht with rfl | rfl <;> simp [clueRaises, hfind]
    · intro g
      rcases ht with rfl | rfl <;> simp [clueSat, hfind]

/-- Witness for C3 (amended), at a concrete template: a positive clue
pairing a base entity with an unknown item errors, a link clue whose
first item is unknown is skipped, and a negative clue with no base-entity
item is skipped. -/
theorem clue_unknown_reference_behavior_witness :
    verify_solution cats2 "P" [⟨"positive", ["A", "Desconocido"]⟩]
      = .error "KeyError: clue references an unknown value"
    ∧ verify_solution cats2 "P" [⟨"link", ["Desconocido", "X"]⟩]
      = verify_solution cats2 "P" []
    ∧ verify_solution cats2 "P" [⟨"negative", ["Gato", "Perro"]⟩]
      = verify_solution cats2 "P" [] :=
  ⟨((clue_unknown_reference_behavior cats2 "P" ["A", "B"] rfl).1
      [⟨"positive", ["A", "Desconocido"]⟩] (by decide)).mpr
      ⟨⟨"positive", ["A", "Desconocido"]⟩, by decide, Or.inl rfl,
        "A", "Desconocido", by decide, by decide⟩,
   (clue_unknown_reference_behavior cats2 "P" ["A", "B"] rfl).2.1
      "Desconocido" "X" [] (Or.inl (by decide)),
   (clue_unknown_reference_behavior cats2 "P" ["A", "B"] rfl).2.2 "negative"
      "Gato" "Perro" [] (Or.inr rfl) (by decide) (by decide)⟩

/-- C7: the uniqueness oracle is a pure function of the clue set — two
clue lists with the same members (any permutation, any duplication, any
repeated call) produce identical results, hence identical solution
counts. -/
theorem verify_solution_pure_in_clue_set (cats : Cats) (base : String)
    (clues1 clues2 : List Clue) (h : ∀ c, c ∈ clues1 ↔ c ∈ clues2) :
    verify_solution cats base clues1 = verify_solution cats base clues2 := by
  unfold verify_solution
  cases hb : lookupCat cats base with
  | none => rfl
  | some baseItems =>
    have hany : clues1.any (clueRaises cats baseItems)
        = clues2.any (clueRaises cats baseItems) := by
      have h1 : clues1.any (clueRaises cats baseItems) = true
          ↔ clues2.any (clueRaises cats baseItems) = true := by
        simp only [List.any_eq_true]
        constructor
        · rintro ⟨c, hc, hpc⟩; exact ⟨c, (h c).1 hc, hpc⟩
        · rintro ⟨c, hc, hpc⟩; exact ⟨c, (h c).2 hc, hpc⟩
      cases h2 : clues1.any (clueRaises cats baseItems)
        <;> cases h3 : clues2.any (clueRaises cats baseItems)
        <;> simp_all
    have hall : ∀ g, clues1.all
        (clueSat cats base baseItems ((otherCats cats base).map (·.1)) g)
        = clues2.all
          (clueSat cats base baseItems ((otherCats cats base).map (·.1)) g) := by
      intro g
      have h1 : clues1.all
          (clueSat cats base baseItems ((otherCats cats base).map (·.1)) g)
            = true
          ↔ clues2.all
            (clueSat cats base baseItems ((otherCats cats base).map (·.1)) g)
              = true := by
        simp only [List.all_eq_true]
        exact ⟨fun ha c hc => ha c ((h c).2 hc), fun ha c hc => ha c ((h c).1 hc)⟩
      cases h2 : clues1.all
          (clueSat cats base baseItems ((otherCats cats base).map (·.1)) g)
        <;> cases h3 : clues2.all
          (clueSat cats base baseItems ((otherCats cats base).map (·.1)) g)
        <;> simp_all
    dsimp only
    rw [hany]
    cases hr : clues2.any (clueRaises cats baseItems)
    · simp only [Bool.false_eq_true, if_false]
      congr 1
      exact List.filter_congr (fun g _ => by rw [hall g])
    · simp

/-- Witness for C7: a permuted, duplicated clue list produces the same
oracle result. -/
theorem verify_solution_pure_in_clue_set_witness :
    verify_solution cats2 "P"
        [⟨"positive", ["A", "X"]⟩, ⟨"negative", ["B", "X"]⟩]
      = verify_solution cats2 "P"
        [⟨"negative", ["B", "X"]⟩, ⟨"positive", ["A", "X"]⟩,
         ⟨"negative", ["B", "X"]⟩] :=
  verify_solution_pure_in_clue_set cats2 "P" _ _ (by
    intro c
    constructor <;> intro hc <;> simp only [List.mem_cons, List.not_mem_nil,
      or_false] at hc ⊢ <;> tauto)

/-- Counterexample to C9: two generation runs with different random draws
(different ground truths, pools and pick streams) but the same template
and index emit the same identifier `"p_1"` — the identifier is not a
freshly drawn random token. -/
theorem puzzle_id_same_across_random_draws :
    (generate_puzzle_from_template "p" cats2 "P" samplesA poolA
        (fun _ => 0) 1).map (Option.map Puzzle.puzzle_id) = .ok (some "p_1")
    ∧ (generate_puzzle_from_template "p" cats2 "P" samplesB poolB
        (fun _ => 1) 1).map (Option.map Puzzle.puzzle_id) = .ok (some "p_1") :=
  ⟨rfl, rfl⟩

/-- C9 (amended): the identifier of every emitted puzzle is the
deterministic string `id_prefix + "_" + puzzle_index`, independent of
every random draw. -/
theorem puzzle_id_deterministic (idPref : String) (cats : Cats)
    (base : String) (samples : List (List String)) (pool : List Clue)
    (picks : Nat → Nat) (idx : Nat) (p : Puzzle)
    (h : generate_puzzle_from_template idPref cats base samples pool picks idx
      = .ok (some p)) :
    p.puzzle_id = idPref ++ "_" ++ toString idx := by
  unfold generate_puzzle_from_template at h
  cases hv : verify_solution cats base [] with
  | error e => rw [hv] at h; exact absurd h (by simp)
  | ok initial =>
    rw [hv] at h
    dsimp only at h
    by_cases hi : initial.isEmpty
    · rw [if_pos hi] at h
      exact absurd h (by simp)
    · rw [if_neg hi] at h
      cases hs : selectLoop cats base (pool.length * 2) (pool.length * 2) 0 []
          pool initial.length picks with
      | error e => rw [hs] at h; exact absurd h (by simp)
      | ok r =>
        obtain ⟨essential, finalCount, att⟩ := r
        rw [hs] at h
        dsimp only at h
        by_cases hf : (finalCount != 1) = true
        · rw [if_pos hf] at h
          exact absurd h (by simp)
        · rw [if_neg hf] at h
          have := Except.ok.inj h
          have := Option.some.inj this
          rw [← this]

/-- Witness for C9 (amended), at a concrete emitted puzzle. -/
theorem puzzle_id_deterministic_witness :
    puzzleA.puzzle_id = "p" ++ "_" ++ toString 1 :=
  puzzle_id_deterministic "p" cats2 "P" samplesA poolA (fun _ => 0) 1
    puzzleA rfl

lemma selectLoop_exit (cats : Cats) (base : String) (max attempts : Nat)
    (essential pool : List Clue) (count : Nat) (picks : Nat → Nat)
    (h : (decide (count > 1) && decide (attempts < max)) = false) :
    ∀ fuel, selectLoop cats base max fuel attempts essential pool count picks
      = .ok (essential, count, attempts) := by
  intro fuel
  cases fuel with
  | zero => rfl
  | succ fuel => rw [selectLoop, if_neg (by simp [h])]

lemma selectLoop_attempts_le (cats : Cats) (base : String) (max : Nat) :
    ∀ fuel attempts essential pool count picks e c a,
      attempts ≤ max →
      selectLoop cats base max fuel attempts essential pool count picks
        = .ok (e, c, a) →
      a ≤ max := by
  intro fuel
  induction fuel with
  | zero =>
    intro attempts essential pool count picks e c a hle h
    rw [selectLoop] at h
    obtain ⟨-, -, rfl⟩ := Prod.mk.injEq _ _ _ _ ▸ Except.ok.inj h
    exact hle
  | succ fuel ih =>
    intro attempts essential pool count picks e c a hle h
    rw [selectLoop] at h
    by_cases hcond : (decide (count > 1) && decide (attempts < max)) = true
    · rw [if_pos hcond] at h
      by_cases hp : pool.isEmpty
      · rw [if_pos hp] at h
        obtain ⟨-, -, rfl⟩ := Prod.mk.injEq _ _ _ _ ▸ Except.ok.inj h
        exact hle
      · rw [if_neg hp] at h
        cases hb : selectBody cats base essential pool count (picks attempts) with
        | error e' => rw [hb] at h; exact absurd h (by simp)
        | ok r =>
          obtain ⟨e1, p1, c1⟩ := r
          rw [hb] at h
          have hlt : attempts < max := by
            simp only [Bool.and_eq_true, decide_eq_true_eq] at hcond
            exact hcond.2
          exact ih (attempts + 1) e1 p1 c1 picks e c a hlt h
    · rw [if_neg hcond] at h
      obtain ⟨-, -, rfl⟩ := Prod.mk.injEq _ _ _ _ ▸ Except.ok.inj h
      exact hle

lemma selectLoop_fuel_irrelevant (cats : Cats) (base : String) (max : Nat) :
    ∀ fuel1 fuel2 attempts essential pool count picks,
      max - attempts ≤ fuel1 → max - attempts ≤ fuel2 →
      selectLoop cats base max fuel1 attempts essential pool count picks
        = selectLoop cats base max fuel2 attempts essential pool count picks := by
  intro fuel1
  induction fuel1 with
  | zero =>
    intro fuel2 attempts essential pool count picks h1 h2
    have hge : max ≤ attempts := by omega
    have hc : (decide (count > 1) && decide (attempts < max)) = false := by
      simp [Nat.not_lt.mpr hge]
    rw [selectLoop_exit cats base max attempts essential pool count picks hc,
      selectLoop_exit cats base max attempts essential pool count picks hc]
  | succ fuel1 ih =>
    intro fuel2 attempts essential pool count picks h1 h2
    by_cases hcond : (decide (count > 1) && decide (attempts < max)) = true
    · have hlt : attempts < max := by
        simp only [Bool.and_eq_true, decide_eq_true_eq] at hcond
        exact hcond.2
      cases fuel2 with
      | zero => omega
      | succ fuel2 =>
        rw [selectLoop, selectLoop, if_pos hcond, if_pos hcond]
        by_cases hp : pool.isEmpty
        · rw [if_pos hp, if_pos hp]
        · rw [if_neg hp, if_neg hp]
          cases hb : selectBody cats base essential pool count (picks attempts) with
          | error e => rfl
          | ok r =>
            obtain ⟨e1, p1, c1⟩ := r
            exact ih fuel2 (attempts + 1) e1 p1 c1 picks (by omega) (by omega)
    · have hc : (decide (count > 1) && decide (attempts < max)) = false := by
        simpa using hcond
      rw [selectLoop_exit cats base max attempts essential pool count picks hc,
        selectLoop_exit cats base max attempts essential pool count picks hc]

lemma selectBody_keep_cases (cats : Cats) (base : String)
    (essential pool : List Clue) (count pick : Nat)
    (e' : List Clue) (p' : List Clue) (c' : Nat)
    (h : selectBody cats base essential pool count pick = .ok (e', p', c')) :
    p' = pool.eraseIdx (pick % pool.length)
    ∧ ((e' = essential ∧ c' = count)
      ∨ (∃ sols, e' = essential ++ [pool.getD (pick % pool.length) ⟨"", []⟩]
          ∧ verify_solution cats base e' = .ok sols
          ∧ c' = sols.length ∧ sols.length < count ∧ 0 < sols.length)) := by
  unfold selectBody at h
  dsimp only at h
  cases hv : verify_solution cats base
      (essential ++ [pool.getD (pick % pool.length) ⟨"", []⟩]) with
  | error e => rw [hv] at h; exact absurd h (by simp)
  | ok sols =>
    rw [hv] at h
    dsimp only at h
    by_cases hc : (decide (sols.length < count) && decide (sols.length > 0)) = true
    · rw [if_pos hc] at h
      simp only [Except.ok.injEq, Prod.mk.injEq] at h
      obtain ⟨he, hp, hcnt⟩ := h
      have hc2 := hc
      simp only [Bool.and_eq_true, decide_eq_true_eq] at hc2
      obtain ⟨h1, h2⟩ := hc2
      refine ⟨hp.symm, Or.inr ⟨sols, he.symm, ?_, ?_, ?_, ?_⟩⟩
      · rw [← he]; exact hv
      · exact hcnt.symm
      · exact h1
      · exact h2
    · rw [if_neg hc] at h
      simp only [Except.ok.injEq, Prod.mk.injEq] at h
      obtain ⟨he, hp, hcnt⟩ := h
      exact ⟨hp.symm, Or.inl ⟨he.symm, hcnt.symm⟩⟩

/-- C6: the clue-selection loop runs at most `2 * |pool|` iterations — its
result is unchanged by any extra fuel beyond the attempt bound, and the
attempt counter at exit never exceeds `2 * |pool|`; moreover the loop body
appends a clue to the selected set only when the candidate solution count
is strictly below the current count and strictly positive, so the live
count strictly decreases at every addition. -/
theorem selection_loop_bounded_and_strictly_decreasing (cats : Cats)
    (base : String) (pool : List Clue) (count : Nat) (picks : Nat → Nat) :
    (∀ e c a, selectLoop cats base (pool.length * 2) (pool.length * 2) 0 []
        pool count picks = .ok (e, c, a) → a ≤ pool.length * 2)
    ∧ (∀ extra, selectLoop cats base (pool.length * 2)
        (pool.length * 2 + extra) 0 [] pool count picks
        = selectLoop cats base (pool.length * 2) (pool.length * 2) 0 []
          pool count picks)
    ∧ (∀ essential pool1 count1 pick e' p' c',
        selectBody cats base essential pool1 count1 pick = .ok (e', p', c') →
        e' ≠ essential →
        e' = essential ++ [pool1.getD (pick % pool1.length) ⟨"", []⟩]
          ∧ c' < count1 ∧ 0 < c') := by
  refine ⟨?_, ?_, ?_⟩
  · intro e c a h
    exact selectLoop_attempts_le cats base (pool.length * 2)
      (pool.length * 2) 0 [] pool count picks e c a (Nat.zero_le _) h
  · intro extra
    exact selectLoop_fuel_irrelevant cats base (pool.length * 2)
      (pool.length * 2 + extra) (pool.length * 2) 0 [] pool count picks
      (by omega) (by omega)
  · intro essential pool1 count1 pick e' p' c' h hne
    rcases (selectBody_keep_cases cats base essential pool1 count1 pick
        e' p' c' h).2 with ⟨he, -⟩ | ⟨sols, he, -, hc, hlt, hpos⟩
    · exact absurd he hne
    · exact ⟨he, hc ▸ hlt, hc ▸ hpos⟩

/-- Witness for C6, at a concrete loop run and a concrete kept clue. -/
theorem selection_loop_bounded_witness :
    (1 : Nat) ≤ poolA.length * 2
    ∧ ([⟨"positive", ["A", "X"]⟩] : List Clue)
        = [] ++ [poolA.getD (0 % poolA.length) ⟨"", []⟩]
    ∧ (1 : Nat) < 2 ∧ (0 : Nat) < 1 := by
  have h := selection_loop_bounded_and_strictly_decreasing cats2 "P" poolA 2
    (fun _ => 0)
  refine ⟨h.1 [⟨"positive", ["A", "X"]⟩] 1 1 rfl, ?_⟩
  have h3 := h.2.2 [] poolA 2 0 [⟨"positive", ["A", "X"]⟩]
    (poolA.eraseIdx 0) 1 rfl (by decide)
  exact ⟨h3.1, h3.2.1, h3.2.2⟩

lemma find?_zip_self {β : Type} (ks : List String) (vs : List β) (j : Nat)
    (hk : ks.Nodup) (hlen : vs.length = ks.length) (hj : j < ks.length) :
    (ks.zip vs).find? (fun p => p.1 == ks.get ⟨j, hj⟩)
      = some (ks.get ⟨j, hj⟩, vs.get ⟨j, by omega⟩) := by
  induction ks generalizing vs j with
  | nil => exact absurd hj (by simp)
  | cons k ks ih =>
    cases vs with
    | nil => simp at hlen
    | cons v vs =>
      cases j with
      | zero => simp [List.find?]
      | succ j =>
        have hj' : j < ks.length := by simpa using hj
        have hk' : k ∉ ks := (List.nodup_cons.mp hk).1
        have hget : (k :: ks).get ⟨j + 1, hj⟩ = ks.get ⟨j, hj'⟩ := rfl
        have hne : (k == (k :: ks).get ⟨j + 1, hj⟩) = false := by
          rw [hget, beq_eq_false_iff_ne]
          intro hkk
          exact hk' (hkk ▸ List.get_mem ks j hj')
        rw [List.zip_cons_cons, List.find?_cons]
        simp only [hne]
        have hres := ih vs j (List.nodup_cons.mp hk).2 (by simpa using hlen) hj'
        rw [hget]
        exact hres

lemma lookupCatD_of_lookupCat (cats : Cats) (name : String) (l : List String)
    (h : lookupCat cats name = some l) : lookupCatD cats name = l := by
  unfold lookupCatD
  rw [h]
  rfl

lemma lookupCat_mem (cats : Cats) (name : String) (l : List String)
    (h : lookupCat cats name = some l) : (name, l) ∈ cats := by
  unfold lookupCat at h
  cases hf : cats.find? (fun c => c.1 == name) with
  | none => rw [hf] at h; exact absurd h (by simp)
  | some e =>
    rw [hf] at h
    have h1 := List.find?_some hf
    have h2 := List.mem_of_find?_eq_some hf
    obtain ⟨e1, e2⟩ := e
    simp only [beq_iff_eq] at h1
    simp only [Option.map_some', Option.some.injEq] at h
    rw [← h1, ← h]
    exact h2

lemma gtRow_create (cats : Cats) (base : String) (samples : List (List String))
    (baseItems : List String) (hbD : lookupCatD cats base = baseItems)
    (hnd : baseItems.Nodup) (i : Nat) (hi : i < baseItems.length) :
    gtRow (create_ground_truth cats base samples) (baseItems.get ⟨i, hi⟩)
      = ((otherCats cats base).zip samples).map
          (fun cs => (cs.1.1, cs.2.getD i "")) := by
  subst hbD
  unfold gtRow create_ground_truth
  rw [find?_zip_self (lookupCatD cats base) _ i hnd (by simp) hi]
  simp

lemma gtValue_create (cats : Cats) (base : String) (samples : List (List String))
    (baseItems : List String) (hbD : lookupCatD cats base = baseItems)
    (hnd : baseItems.Nodup)
    (hnames : ((otherCats cats base).map Prod.fst).Nodup)
    (hslen : samples.length = (otherCats cats base).length)
    (i j : Nat) (hi : i < baseItems.length)
    (hj : j < (otherCats cats base).length) :
    gtValue (create_ground_truth cats base samples)
        (baseItems.get ⟨i, hi⟩)
        (((otherCats cats base).get ⟨j, hj⟩).1)
      = (samples.get ⟨j, by omega⟩).getD i "" := by
  subst hbD
  unfold gtValue
  rw [gtRow_create cats base samples _ rfl hnd i hi]
  have hzip : ((otherCats cats base).zip samples).map
      (fun cs => (cs.1.1, cs.2.getD i ""))
      = ((otherCats cats base).map Prod.fst).zip
          (samples.map (fun s => s.getD i "")) := by
    rw [List.zip_map]
    rfl
  rw [hzip]
  have hj2 : j < ((otherCats cats base).map Prod.fst).length := by simpa using hj
  have hgetname : ((otherCats cats base).get ⟨j, hj⟩).1
      = ((otherCats cats base).map Prod.fst).get ⟨j, hj2⟩ := by
    rw [List.get_map]
  rw [hgetname,
    find?_zip_self _ _ j hnames (by simp [hslen]) hj2]
  simp

lemma assigned_column_eq (cats : Cats) (base : String)
    (samples : List (List String))
    (baseItems : List String) (hbD : lookupCatD cats base = baseItems)
    (hnd : baseItems.Nodup)
    (hnames : ((otherCats cats base).map Prod.fst).Nodup)
    (hslen : samples.length = (otherCats cats base).length)
    (j : Nat) (hj : j < (otherCats cats base).length)
    (hjlen : (samples.get ⟨j, by omega⟩).length = baseItems.length) :
    baseItems.map (fun b =>
        gtValue (create_ground_truth cats base samples) b
          (((otherCats cats base).get ⟨j, hj⟩).1))
      = samples.get ⟨j, by omega⟩ := by
  apply List.ext_get
  · simp only [List.length_map]
    exact hjlen.symm
  · intro i h1 h2
    have hi : i < baseItems.length := by simpa using h1
    rw [List.get_map]
    rw [gtValue_create cats base samples baseItems hbD hnd hnames hslen i j hi hj]
    rw [List.getD_eq_getElem _ _ (by omega)]
    rfl

/-- C8: when every category's domain has exactly as many values as there
are base entities, every ground truth `create_ground_truth` can produce
assigns, in each non-base category, values that are a permutation of the
category's declared domain across the base entities — pairwise distinct
and jointly covering the whole domain. -/
theorem ground_truth_assigns_each_domain_bijectively (cats : Cats)
    (base : String) (baseItems : List String) (samples : List (List String))
    (hbase : lookupCat cats base = some baseItems)
    (hkeys : (cats.map Prod.fst).Nodup)
    (hnd : ∀ c ∈ cats, c.2.Nodup)
    (hsize : ∀ c ∈ cats, c.2.length = baseItems.length)
    (hsamp : List.Forall₂ (fun (s : List String) (c : String × List String) =>
        (∀ x ∈ s, x ∈ c.2) ∧ s.Nodup ∧ s.length = baseItems.length)
      samples (otherCats cats base)) :
    ∀ c ∈ otherCats cats base,
      (baseItems.map (fun b =>
        gtValue (create_ground_truth cats base samples) b c.1)).Perm c.2
      ∧ (baseItems.map (fun b =>
          gtValue (create_ground_truth cats base samples) b c.1)).Nodup := by
  intro c hc
  have hbD : lookupCatD cats base = baseItems :=
    lookupCatD_of_lookupCat cats base baseItems hbase
  have hbmem : (base, baseItems) ∈ cats := lookupCat_mem cats base baseItems hbase
  have hbnd : baseItems.Nodup := hnd (base, baseItems) hbmem
  have hnames : ((otherCats cats base).map Prod.fst).Nodup :=
    List.Nodup.sublist (List.Sublist.map Prod.fst (List.filter_sublist cats)) hkeys
  obtain ⟨⟨j, hj⟩, hget⟩ := List.mem_iff_get.mp hc
  obtain ⟨hslen, hcomp⟩ := List.forall₂_iff_get.mp hsamp
  have hj2 : j < samples.length := by omega
  have hprops := hcomp j hj2 hj
  rw [hget] at hprops
  obtain ⟨hsub, hsnd, hslen_j⟩ := hprops
  have hc_cats : c ∈ cats := List.mem_of_mem_filter hc
  have hcol : baseItems.map (fun b =>
      gtValue (create_ground_truth cats base samples) b c.1)
      = samples.get ⟨j, hj2⟩ := by
    have := assigned_column_eq cats base samples baseItems hbD hbnd hnames
      hslen j hj hslen_j
    rw [← this, hget]
  rw [hcol]
  have hperm : (samples.get ⟨j, hj2⟩).Perm c.2 := by
    have hsp : List.Subperm (samples.get ⟨j, hj2⟩) c.2 :=
      List.subperm_of_subset hsnd (fun x hx => hsub x hx)
    exact hsp.perm_of_length_le (by rw [hslen_j, hsize c hc_cats])
  exact ⟨hperm, hsnd⟩

/-- Witness for C8, at the concrete template `cats2` and draw `samplesA`. -/
theorem ground_truth_bijection_witness :
    ((["A", "B"].map (fun b => gtValue gtA b "M")).Perm ["X", "Y"])
    ∧ (["A", "B"].map (fun b => gtValue gtA b "M")).Nodup :=
  ground_truth_assigns_each_domain_bijectively cats2 "P" ["A", "B"] samplesA
    rfl (by decide) (by decide) (by decide)
    (List.Forall₂.cons ⟨by decide, by decide, by decide⟩ List.Forall₂.nil)
    ("M", ["X", "Y"]) (by decide)

lemma strIdx_of_get (l : List String) (hnd : l.Nodup) (i : Nat)
    (hi : i < l.length) : strIdx l (l.get ⟨i, hi⟩) = i := by
  induction l generalizing i with
  | nil => exact absurd hi (by simp)
  | cons x xs ih =>
    cases i with
    | zero => simp [strIdx, List.findIdx_cons]
    | succ i =>
      have hx : x ∉ xs := (List.nodup_cons.mp hnd).1
      have hi' : i < xs.length := by simpa using hi
      have hget : (x :: xs).get ⟨i + 1, hi⟩ = xs.get ⟨i, hi'⟩ := rfl
      have hne : (x == (x :: xs).get ⟨i + 1, hi⟩) = false := by
        rw [hget, beq_eq_false_iff_ne]
        intro h
        exact hx (h ▸ List.get_mem xs i hi')
      unfold strIdx
      rw [List.findIdx_cons]
      simp only [hne, cond_false]
      rw [hget]
      have := ih (List.nodup_cons.mp hnd).2 i hi'
      unfold strIdx at this
      omega

lemma distinctB_iff (l : List String) : distinctB l = true ↔ l.Nodup := by
  induction l with
  | nil => simp [distinctB]
  | cons x xs ih =>
    rw [distinctB, List.nodup_cons, Bool.and_eq_true, ← ih]
    simp

lemma cellVal_ground_truth_grid (baseItems otherNames : List String)
    (samples : List (List String))
    (hbnd : baseItems.Nodup) (honnd : otherNames.Nodup)
    (hslen : samples.length = otherNames.length)
    (i j : Nat) (hi : i < baseItems.length) (hj : j < samples.length) :
    cellVal baseItems otherNames (ground_truth_grid baseItems.length samples)
        (baseItems.get ⟨i, hi⟩) (otherNames.get ⟨j, by omega⟩)
      = samples[j].getD i "" := by
  unfold cellVal ground_truth_grid
  rw [strIdx_of_get baseItems hbnd i hi,
    strIdx_of_get otherNames honnd j (by omega)]
  have hrow : ((List.range baseItems.length).map (fun i =>
      samples.map (fun s => s.getD i ""))).getD i []
      = samples.map (fun s => s.getD i "") := by
    rw [List.getD_eq_getElem _ _ (by simpa using hi)]
    simp
  rw [hrow]
  rw [List.getD_eq_getElem _ _ (by simpa using hj)]
  simp

lemma grid_column_eq (n : Nat) (samples : List (List String)) (j : Nat)
    (hj : j < samples.length)
    (hlen : samples[j].length = n) :
    (ground_truth_grid n samples).map (fun r => r.getD j "")
      = samples[j] := by
  unfold ground_truth_grid
  rw [List.map_map]
  apply List.ext_get
  · simpa using hlen.symm
  · intro i h1 h2
    have hi : i < n := by simpa using h1
    rw [List.get_map]
    simp only [Function.comp, List.get_range]
    rw [List.getD_eq_getElem _ _ (by simpa using hj)]
    simp only [List.getElem_map]
    rw [List.getD_eq_getElem _ _ (by omega)]
    simp

lemma allDifferentOk_ground_truth (others : Cats)
    (samples : List (List String)) (n : Nat)
    (hslen : samples.length = others.length)
    (hsnd : ∀ (j : Nat) (hj : j < samples.length),
      samples[j].Nodup ∧ samples[j].length = n) :
    allDifferentOk others.length (ground_truth_grid n samples) = true := by
  unfold allDifferentOk
  rw [List.all_eq_true]
  intro j hjmem
  have hj : j < samples.length := by
    rw [hslen]; exact List.mem_range.mp hjmem
  rw [grid_column_eq n samples j hj (hsnd j hj).2]
  exact (distinctB_iff _).mpr (hsnd j hj).1

lemma ground_truth_grid_mem (baseItems : List String) (others : Cats)
    (samples : List (List String))
    (hslen : samples.length = others.length)
    (hcomp : ∀ (j : Nat) (hj : j < samples.length),
      (∀ x ∈ samples[j], x ∈ others[j].2)
      ∧ samples[j].length = baseItems.length) :
    ground_truth_grid baseItems.length samples ∈ allGrids baseItems others := by
  unfold allGrids
  rw [List.mem_sections, List.forall₂_iff_get]
  constructor
  · simp [ground_truth_grid]
  · intro i h1 h2
    have hi : i < baseItems.length := by
      simpa [ground_truth_grid] using h1
    have hrow : (ground_truth_grid baseItems.length samples).get ⟨i, h1⟩
        = samples.map (fun s => s.getD i "") := by
      unfold ground_truth_grid
      rw [List.get_eq_getElem]
      simp
    rw [hrow]
    have hconst : (baseItems.map
        (fun _ => (others.map (fun c => c.2)).sections)).get ⟨i, h2⟩
        = (others.map (fun c => c.2)).sections := by
      rw [List.get_eq_getElem]
      simp
    rw [hconst, List.mem_sections, List.forall₂_iff_get]
    constructor
    · simp [hslen]
    · intro j hh1 hh2
      have hj : j < samples.length := by simpa using hh1
      have hv : (samples.map (fun s => s.getD i "")).get ⟨j, hh1⟩
          = samples[j].getD i "" := by
        rw [List.get_eq_getElem]
        simp
      have hd : (others.map (fun c => c.2)).get ⟨j, hh2⟩ = others[j].2 := by
        rw [List.get_eq_getElem]
        simp
      rw [hv, hd]
      have hij : i < samples[j].length := by
        rw [(hcomp j hj).2]; exact hi
      rw [List.getD_eq_getElem _ _ hij]
      exact (hcomp j hj).1 _ (List.getElem_mem hij)

lemma mem_pairsOf {l : List String} {p : String × String}
    (h : p ∈ pairsOf l) :
    ∃ i j : Nat, i < j ∧ j < l.length
      ∧ p.1 = l.getD i "" ∧ p.2 = l.getD j "" := by
  induction l with
  | nil => exact absurd h (by simp [pairsOf])
  | cons x xs ih =>
    rw [pairsOf, List.mem_append] at h
    rcases h with h | h
    · rw [List.mem_map] at h
      obtain ⟨y, hy, hp⟩ := h
      obtain ⟨⟨k, hk⟩, hyk⟩ := List.mem_iff_get.mp hy
      refine ⟨0, k + 1, by omega, by simpa using hk, ?_, ?_⟩
      · rw [← hp]; rfl
      · rw [← hp]
        show y = xs.getD k ""
        rw [List.getD_eq_getElem _ _ hk, ← hyk, List.get_eq_getElem]
    · obtain ⟨i, j, hij, hj, h1, h2⟩ := ih h
      refine ⟨i + 1, j + 1, by omega, by simpa using hj, ?_, ?_⟩
      · rw [h1]; rfl
      · rw [h2]; rfl

lemma get_category_name_of_mem (cats : Cats)
    (hdisj : ∀ c1 ∈ cats, ∀ c2 ∈ cats, ∀ v, v ∈ c1.2 → v ∈ c2.2 → c1.1 = c2.1)
    (c : String × List String) (hc : c ∈ cats) (v : String) (hv : v ∈ c.2) :
    get_category_name v cats = some c.1 := by
  unfold get_category_name
  cases hf : cats.find? (fun e => e.2.contains v) with
  | none =>
    rw [List.find?_eq_none] at hf
    exact absurd (by simpa using hv : (c.2.contains v) = true) (hf c hc)
  | some e =>
    have h1 := List.find?_some hf
    have h2 := List.mem_of_find?_eq_some hf
    simp only [Option.map_some', Option.some.injEq]
    exact hdisj e h2 c hc v (by simpa using h1) hv

lemma lookupCat_of_mem (cats : Cats) (hkeys : (cats.map Prod.fst).Nodup)
    (c : String × List String) (hc : c ∈ cats) :
    lookupCat cats c.1 = some c.2 := by
  unfold lookupCat
  cases hf : cats.find? (fun e => e.1 == c.1) with
  | none =>
    rw [List.find?_eq_none] at hf
    exact absurd (by simp) (hf c hc)
  | some e =>
    have h1 := List.find?_some hf
    have h2 := List.mem_of_find?_eq_some hf
    simp only [beq_iff_eq] at h1
    have : e = c := List.inj_on_of_nodup_map hkeys h2 hc h1
    rw [this]
    rfl

lemma value_not_in_base (cats : Cats) (base : String)
    (baseItems : List String)
    (hbase : lookupCat cats base = some baseItems)
    (hdisj : ∀ c1 ∈ cats, ∀ c2 ∈ cats, ∀ v, v ∈ c1.2 → v ∈ c2.2 → c1.1 = c2.1)
    (c : String × List String) (hc : c ∈ otherCats cats base)
    (v : String) (hv : v ∈ c.2) : v ∉ baseItems := by
  intro hvb
  have hbmem := lookupCat_mem cats base baseItems hbase
  have hname := hdisj c (List.mem_of_mem_filter hc) (base, baseItems) hbmem v hv hvb
  have hne := List.of_mem_filter hc
  simp only [bne_iff_ne, ne_eq, decide_eq_true_eq] at hne
  exact hne hname

lemma nodup_getElem_inj (l : List String) (hnd : l.Nodup) (a b : Nat)
    (ha : a < l.length) (hb : b < l.length) (h : l[a] = l[b]) : a = b := by
  have hg := hnd.get_inj_iff (i := ⟨a, ha⟩) (j := ⟨b, hb⟩)
  rw [List.get_eq_getElem, List.get_eq_getElem] at hg
  exact congrArg Fin.val (hg.mp h)

lemma clue_ok_of_mem_pool (cats : Cats) (base : String)
    (baseItems : List String) (samples : List (List String))
    (hbase : lookupCat cats base = some baseItems)
    (hkeys : (cats.map Prod.fst).Nodup)
    (hnd : ∀ c ∈ cats, c.2.Nodup)
    (hdisj : ∀ c1 ∈ cats, ∀ c2 ∈ cats, ∀ v, v ∈ c1.2 → v ∈ c2.2 → c1.1 = c2.1)
    (hsamp : List.Forall₂ (fun (s : List String) (c : String × List String) =>
        (∀ x ∈ s, x ∈ c.2) ∧ s.Nodup ∧ s.length = baseItems.length)
      samples (otherCats cats base))
    {clue : Clue}
    (hc : clue ∈ generate_all_possible_clues
        (create_ground_truth cats base samples) cats base) :
    clueRaises cats baseItems clue = false
    ∧ clueSat cats base baseItems ((otherCats cats base).map Prod.fst)
        (ground_truth_grid baseItems.length samples) clue = true := by
  have hbD := lookupCatD_of_lookupCat cats base baseItems hbase
  have hbmem := lookupCat_mem cats base baseItems hbase
  have hbnd : baseItems.Nodup := hnd _ hbmem
  have hnames : ((otherCats cats base).map Prod.fst).Nodup :=
    List.Nodup.sublist (List.Sublist.map Prod.fst (List.filter_sublist cats))
      hkeys
  obtain ⟨hslen, hcomp⟩ := List.forall₂_iff_get.mp hsamp
  unfold generate_all_possible_clues at hc
  dsimp only at hc
  rw [hbD, List.mem_flatMap] at hc
  obtain ⟨b, hb, hcb⟩ := hc
  obtain ⟨⟨i, hi⟩, hbi⟩ := List.mem_iff_get.mp hb
  subst hbi
  have hrow : gtRow (create_ground_truth cats base samples)
      (baseItems.get ⟨i, hi⟩)
      = ((otherCats cats base).zip samples).map
          (fun cs => (cs.1.1, cs.2.getD i "")) :=
    gtRow_create cats base samples baseItems hbD hbnd i hi
  rw [hrow, List.mem_append] at hcb
  have hkfacts : ∀ (k : Nat) (hk : k < (otherCats cats base).length),
      (otherCats cats base)[k] ∈ cats
      ∧ (otherCats cats base)[k].1 ≠ base
      ∧ samples[k].length = baseItems.length
      ∧ samples[k].Nodup
      ∧ (∀ x ∈ samples[k], x ∈ (otherCats cats base)[k].2) := by
    intro k hk
    have hk2 : k < samples.length := by omega
    have hcompk := hcomp k hk2 hk
    simp only [List.get_eq_getElem] at hcompk
    refine ⟨List.mem_of_mem_filter (List.getElem_mem hk), ?_,
      hcompk.2.2, hcompk.2.1, hcompk.1⟩
    have hmem : (otherCats cats base)[k] ∈ otherCats cats base :=
      List.getElem_mem hk
    have hne := List.of_mem_filter (show (otherCats cats base)[k]
      ∈ List.filter (fun c => c.1 != base) cats from hmem)
    simpa using hne
  have hval : ∀ (k : Nat) (hk : k < (otherCats cats base).length),
      samples[k].getD i "" ∈ (otherCats cats base)[k].2 := by
    intro k hk
    have h3 := (hkfacts k hk).2.2.1
    have hsub := (hkfacts k hk).2.2.2.2
    have hib : i < samples[k].length := by omega
    rw [List.getD_eq_getElem _ _ hib]
    exact hsub _ (List.getElem_mem hib)
  have hcell : ∀ (k : Nat) (hk : k < (otherCats cats base).length)
      (i' : Nat) (hi' : i' < baseItems.length),
      cellVal baseItems ((otherCats cats base).map Prod.fst)
        (ground_truth_grid baseItems.length samples)
        (baseItems.get ⟨i', hi'⟩) ((otherCats cats base)[k].1)
      = samples[k].getD i' "" := by
    intro k hk i' hi'
    have hk2 : k < samples.length := by omega
    have hcat : (otherCats cats base)[k].1
        = ((otherCats cats base).map Prod.fst).get ⟨k, by simpa using hk⟩ := by
      rw [List.get_eq_getElem]
      simp
    rw [hcat]
    exact cellVal_ground_truth_grid baseItems _ samples hbnd hnames
      (by simpa using hslen) i' k hi' hk2
  have hgc : ∀ (k : Nat) (hk : k < (otherCats cats base).length),
      ∀ v : String, v ∈ (otherCats cats base)[k].2 →
      get_category_name v cats = some ((otherCats cats base)[k].1) := by
    intro k hk v hv
    exact get_category_name_of_mem cats hdisj _ (hkfacts k hk).1 v hv
  have hnb : ∀ (k : Nat) (hk : k < (otherCats cats base).length),
      ∀ v : String, v ∈ (otherCats cats base)[k].2 → v ∉ baseItems := by
    intro k hk v hv
    exact value_not_in_base cats base baseItems hbase hdisj _
      (List.getElem_mem hk) v hv
  have hbmem2 : baseItems.get ⟨i, hi⟩ ∈ baseItems := List.get_mem baseItems i hi
  rcases hcb with hpn | hlink
  · rw [List.mem_flatMap] at hpn
    obtain ⟨cv, hcv, hcl⟩ := hpn
    rw [List.mem_map] at hcv
    obtain ⟨cs, hcs, hcveq⟩ := hcv
    obtain ⟨⟨k, hkz⟩, hcsk⟩ := List.mem_iff_get.mp hcs
    have hk : k < (otherCats cats base).length := by
      have := hkz
      simp only [List.length_zip] at this
      omega
    have hk2 : k < samples.length := by
      have := hkz
      simp only [List.length_zip] at this
      omega
    have hcs_eq : cs = ((otherCats cats base)[k], samples[k]) := by
      rw [← hcsk, List.get_zip]
      simp only [List.get_eq_getElem]
    rw [hcs_eq] at hcveq
    have hcv1 : cv.1 = (otherCats cats base)[k].1 := by rw [← hcveq]
    have hcv2 : cv.2 = samples[k].getD i "" := by rw [← hcveq]
    have hv : cv.2 ∈ (otherCats cats base)[k].2 := by
      rw [hcv2]; exact hval k hk
    have hvnb : cv.2 ∉ baseItems := hnb k hk _ hv
    have hgcv := hgc k hk _ hv
    rcases List.mem_cons.mp hcl with hclpos | hclneg
    · subst hclpos
      have hfba : find_base_and_other_item
          [baseItems.get ⟨i, hi⟩, cv.2] baseItems
          = (some (baseItems.get ⟨i, hi⟩), some cv.2) := by
        simp [find_base_and_other_item, hbmem2, hvnb]
      have hcellv : cellVal baseItems ((otherCats cats base).map Prod.fst)
          (ground_truth_grid baseItems.length samples)
          (baseItems.get ⟨i, hi⟩) ((otherCats cats base)[k].1) = cv.2 := by
        rw [hcell k hk i hi, hcv2]
      refine ⟨?_, ?_⟩
      · unfold clueRaises
        rw [if_pos (by rfl), hfba]
        dsimp only
        rw [hgcv]
        rfl
      · unfold clueSat
        rw [if_pos (by rfl), hfba]
        dsimp only
        rw [hgcv]
        dsimp only
        rw [hcellv]
        exact beq_self_eq_true _
    · rw [List.mem_map] at hclneg
      obtain ⟨o, ho, hclo⟩ := hclneg
      rw [List.mem_filter] at ho
      obtain ⟨homem, hone⟩ := ho
      rw [hcv1] at homem
      have hlk : lookupCatD cats ((otherCats cats base)[k].1)
          = (otherCats cats base)[k].2 :=
        lookupCatD_of_lookupCat _ _ _
          (lookupCat_of_mem cats hkeys _ (hkfacts k hk).1)
      rw [hlk] at homem
      subst hclo
      have honb : o ∉ baseItems := hnb k hk o homem
      have hgco := hgc k hk o homem
      have hfba : find_base_and_other_item
          [baseItems.get ⟨i, hi⟩, o] baseItems
          = (some (baseItems.get ⟨i, hi⟩), some o) := by
        simp [find_base_and_other_item, hbmem2, honb]
      have hcellv : cellVal baseItems ((otherCats cats base).map Prod.fst)
          (ground_truth_grid baseItems.length samples)
          (baseItems.get ⟨i, hi⟩) ((otherCats cats base)[k].1) = cv.2 := by
        rw [hcell k hk i hi, hcv2]
      refine ⟨?_, ?_⟩
      · unfold clueRaises
        rw [if_pos (by rfl), hfba]
        dsimp only
        rw [hgco]
        rfl
      · unfold clueSat
        rw [if_neg (by simp), if_pos (by rfl), hfba]
        dsimp only
        rw [hgco]
        dsimp only
        rw [hcellv]
        have : cv.2 ≠ o := by
          intro heq
          rw [← heq] at hone
          simp at hone
        exact bne_iff_ne.mpr this
  · rw [List.mem_map] at hlink
    obtain ⟨p, hp, hclp⟩ := hlink
    obtain ⟨j1, j2, hj12, hj2len, hp1, hp2⟩ := mem_pairsOf hp
    have hlenvals : ((((otherCats cats base).zip samples).map
        (fun cs => (cs.1.1, cs.2.getD i ""))).map (fun cv => cv.2)).length
        = (otherCats cats base).length := by
      simp only [List.length_map, List.length_zip]
      omega
    have hj2' : j2 < (otherCats cats base).length := by
      rw [← hlenvals]
      simpa using hj2len
    have hj1' : j1 < (otherCats cats base).length := by omega
    have hvals : ∀ (t : Nat) (ht : t < (otherCats cats base).length),
        ((((otherCats cats base).zip samples).map
          (fun cs => (cs.1.1, cs.2.getD i ""))).map (fun cv => cv.2)).getD t ""
        = samples[t].getD i "" := by
      intro t ht
      have ht2 : t < samples.length := by omega
      rw [List.getD_eq_getElem _ _ (by rw [hlenvals]; exact ht)]
      simp [List.getElem_zip]
    rw [hvals j1 hj1'] at hp1
    rw [hvals j2 hj2'] at hp2
    subst hclp
    have hv1 : p.1 ∈ (otherCats cats base)[j1].2 := by
      rw [hp1]; exact hval j1 hj1'
    have hv2 : p.2 ∈ (otherCats cats base)[j2].2 := by
      rw [hp2]; exact hval j2 hj2'
    have hgc1 := hgc j1 hj1' p.1 hv1
    have hgc2 := hgc j2 hj2' p.2 hv2
    have hnbase1 : (((otherCats cats base)[j1].1) == base) = false := by
      simpa using (hkfacts j1 hj1').2.1
    have hnbase2 : (((otherCats cats base)[j2].1) == base) = false := by
      simpa using (hkfacts j2 hj2').2.1
    refine ⟨?_, ?_⟩
    · unfold clueRaises
      rw [if_neg (by simp), if_pos (by rfl)]
      rfl
    · unfold clueSat
      rw [if_neg (by simp), if_neg (by simp), if_pos (by rfl)]
      dsimp only
      rw [hgc1, hgc2]
      dsimp only
      rw [if_neg (by rw [hnbase1, hnbase2]; simp)]
      rw [List.all_eq_true]
      intro b' hb'
      obtain ⟨⟨i', hi'⟩, hbi'⟩ := List.mem_iff_get.mp hb'
      subst hbi'
      rw [hcell j1 hj1' i' hi', hcell j2 hj2' i' hi']
      have hl1 := (hkfacts j1 hj1').2.2.1
      have hl2 := (hkfacts j2 hj2').2.2.1
      have hnd1 := (hkfacts j1 hj1').2.2.2.1
      have hnd2 := (hkfacts j2 hj2').2.2.2.1
      by_cases hii : i' = i
      · subst hii
        rw [← hp1, ← hp2]
        simp
      · have h1 : (samples[j1].getD i' "" == p.1) = false := by
          rw [hp1, beq_eq_false_iff_ne]
          intro heq
          apply hii
          rw [List.getD_eq_getElem _ _ (by omega),
            List.getD_eq_getElem _ _ (by omega)] at heq
          exact nodup_getElem_inj _ hnd1 i' i (by omega) (by omega) heq
        have h2 : (samples[j2].getD i' "" == p.2) = false := by
          rw [hp2, beq_eq_false_iff_ne]
          intro heq
          apply hii
          rw [List.getD_eq_getElem _ _ (by omega),
            List.getD_eq_getElem _ _ (by omega)] at heq
          exact nodup_getElem_inj _ hnd2 i' i (by omega) (by omega) heq
        rw [h1, h2]
        rfl

lemma verify_ok_parts (cats : Cats) (base : String) (baseItems : List String)
    (clues : List Clue) (sols : List Grid)
    (hbase : lookupCat cats base = some baseItems)
    (h : verify_solution cats base clues = .ok sols) :
    clues.any (clueRaises cats baseItems) = false
    ∧ sols = (allGrids baseItems (otherCats cats base)).filter (fun g =>
        allDifferentOk (otherCats cats base).length g
          && clues.all (clueSat cats base baseItems
            ((otherCats cats base).map (·.1)) g)) := by
  unfold verify_solution at h
  rw [hbase] at h
  dsimp only at h
  by_cases hr : clues.any (clueRaises cats baseItems) = true
  · rw [if_pos hr] at h
    exact absurd h (by simp)
  · rw [if_neg hr] at h
    refine ⟨by simpa using hr, ?_⟩
    exact (Except.ok.inj h).symm

lemma selectLoop_invariant (cats : Cats) (base : String) (allC : List Clue) :
    ∀ (fuel max attempts : Nat) (essential pool : List Clue) (count : Nat)
      (picks : Nat → Nat) (e' : List Clue) (c' a' : Nat),
      (∀ c ∈ essential, c ∈ allC) → (∀ c ∈ pool, c ∈ allC) →
      (∃ sols, verify_solution cats base essential = .ok sols
        ∧ count = sols.length) →
      selectLoop cats base max fuel attempts essential pool count picks
        = .ok (e', c', a') →
      (∀ c ∈ e', c ∈ allC)
      ∧ ∃ sols', verify_solution cats base e' = .ok sols'
          ∧ c' = sols'.length := by
  intro fuel
  induction fuel with
  | zero =>
    intro max attempts essential pool count picks e' c' a' he hp hv h
    rw [selectLoop] at h
    simp only [Except.ok.injEq, Prod.mk.injEq] at h
    obtain ⟨h1, h2, h3⟩ := h
    subst h1
    subst h2
    exact ⟨he, hv⟩
  | succ fuel ih =>
    intro max attempts essential pool count picks e' c' a' he hp hv h
    rw [selectLoop] at h
    by_cases hcond : (decide (count > 1) && decide (attempts < max)) = true
    · rw [if_pos hcond] at h
      by_cases hpe : pool.isEmpty
      · rw [if_pos hpe] at h
        simp only [Except.ok.injEq, Prod.mk.injEq] at h
        obtain ⟨h1, h2, h3⟩ := h
        subst h1
        subst h2
        exact ⟨he, hv⟩
      · rw [if_neg hpe] at h
        cases hb : selectBody cats base essential pool count (picks attempts) with
        | error e => rw [hb] at h; exact absurd h (by simp)
        | ok r =>
          obtain ⟨e1, p1, c1⟩ := r
          rw [hb] at h
          obtain ⟨hpeq, hcase⟩ := selectBody_keep_cases cats base essential pool
            count (picks attempts) e1 p1 c1 hb
          have hplen : 0 < pool.length := by
            cases pool with
            | nil => simp at hpe
            | cons a l => simp
          have hidx : picks attempts % pool.length < pool.length :=
            Nat.mod_lt _ hplen
          have hpopmem : pool.getD (picks attempts % pool.length) ⟨"", []⟩
              ∈ pool := by
            rw [List.getD_eq_getElem _ _ hidx]
            exact List.getElem_mem hidx
          have hp1sub : ∀ c ∈ p1, c ∈ allC := by
            intro c hc
            apply hp
            rw [hpeq] at hc
            exact (List.eraseIdx_sublist pool _).subset hc
          rcases hcase with ⟨he1, hc1⟩ | ⟨sols, he1, hver, hc1, -, -⟩
          · rw [he1, hc1] at h
            exact ih max (attempts + 1) essential p1 count picks e' c' a'
              he hp1sub hv h
          · have he1sub : ∀ c ∈ e1, c ∈ allC := by
              intro c hc
              rw [he1] at hc
              rcases List.mem_append.mp hc with hc | hc
              · exact he c hc
              · rw [List.mem_singleton] at hc
                subst hc
                exact hp _ hpopmem
            exact ih max (attempts + 1) e1 p1 c1 picks e' c' a' he1sub hp1sub
              ⟨sols, hver, hc1⟩ h
    · rw [if_neg hcond] at h
      simp only [Except.ok.injEq, Prod.mk.injEq] at h
      obtain ⟨h1, h2, h3⟩ := h
      subst h1
      subst h2
      exact ⟨he, hv⟩

lemma gridOfGroundTruth_eq (cats : Cats) (base : String)
    (baseItems : List String) (samples : List (List String))
    (hbD : lookupCatD cats base = baseItems)
    (hbnd : baseItems.Nodup)
    (hnames : ((otherCats cats base).map Prod.fst).Nodup)
    (hslen : samples.length = (otherCats cats base).length) :
    gridOfGroundTruth (create_ground_truth cats base samples) baseItems
        ((otherCats cats base).map Prod.fst)
      = ground_truth_grid baseItems.length samples := by
  unfold gridOfGroundTruth ground_truth_grid
  apply List.ext_get
  · simp
  · intro n h1 h2
    have hn : n < baseItems.length := by simpa using h1
    simp only [List.get_eq_getElem, List.getElem_map, List.getElem_range]
    apply List.ext_get
    · simp [hslen]
    · intro j hh1 hh2
      have hj : j < (otherCats cats base).length := by simpa using hh1
      simp only [List.get_eq_getElem, List.getElem_map]
      have hgv := gtValue_create cats base samples baseItems hbD hbnd hnames
        hslen n j hn hj
      simp only [List.get_eq_getElem] at hgv
      exact hgv

/-- C1: whenever `generate_puzzle_from_template` emits a puzzle from a
well-formed template (base category present, category names unique,
domains duplicate-free and pairwise disjoint), the CSP of
`verify_solution` on the emitted clue set has exactly one solution, and
that solution is the grid form of the emitted ground truth. -/
theorem emitted_puzzle_has_unique_solution_equal_to_ground_truth
    (idPref : String) (cats : Cats) (base : String) (baseItems : List String)
    (samples : List (List String)) (pool : List Clue) (picks : Nat → Nat)
    (idx : Nat) (p : Puzzle)
    (hbase : lookupCat cats base = some baseItems)
    (hkeys : (cats.map Prod.fst).Nodup)
    (hnd : ∀ c ∈ cats, c.2.Nodup)
    (hdisj : ∀ c1 ∈ cats, ∀ c2 ∈ cats, ∀ v, v ∈ c1.2 → v ∈ c2.2 → c1.1 = c2.1)
    (hsamp : List.Forall₂ (fun (s : List String) (c : String × List String) =>
        (∀ x ∈ s, x ∈ c.2) ∧ s.Nodup ∧ s.length = baseItems.length)
      samples (otherCats cats base))
    (hpool : ∀ c ∈ pool, c ∈ generate_all_possible_clues
        (create_ground_truth cats base samples) cats base)
    (hgen : generate_puzzle_from_template idPref cats base samples pool picks
      idx = .ok (some p)) :
    p.ground_truth_solution = create_ground_truth cats base samples
    ∧ verify_solution cats base p.structured_clues_used
      = .ok [gridOfGroundTruth p.ground_truth_solution baseItems
          ((otherCats cats base).map Prod.fst)] := by
  unfold generate_puzzle_from_template at hgen
  cases hv0 : verify_solution cats base [] with
  | error e => rw [hv0] at hgen; exact absurd hgen (by simp)
  | ok initial =>
    rw [hv0] at hgen
    dsimp only at hgen
    by_cases hi0 : initial.isEmpty
    · rw [if_pos hi0] at hgen
      exact absurd hgen (by simp)
    · rw [if_neg hi0] at hgen
      cases hsel : selectLoop cats base (pool.length * 2) (pool.length * 2) 0
          [] pool initial.length picks with
      | error e => rw [hsel] at hgen; exact absurd hgen (by simp)
      | ok r =>
        obtain ⟨essential, finalCount, att⟩ := r
        rw [hsel] at hgen
        dsimp only at hgen
        by_cases hf : (finalCount != 1) = true
        · rw [if_pos hf] at hgen
          exact absurd hgen (by simp)
        · rw [if_neg hf] at hgen
          have hfc : finalCount = 1 := by simpa using hf
          have hrec := Option.some.inj (Except.ok.inj hgen)
          have hclues : p.structured_clues_used = essential := by rw [← hrec]
          have hgt : p.ground_truth_solution
              = create_ground_truth cats base samples := by rw [← hrec]
          refine ⟨hgt, ?_⟩
          obtain ⟨hesub, sols, hvsols, hcnt⟩ := selectLoop_invariant cats base
            (generate_all_possible_clues
              (create_ground_truth cats base samples) cats base)
            (pool.length * 2) (pool.length * 2) 0 [] pool initial.length picks
            essential finalCount att (by intro c hc; exact absurd hc (by simp))
            hpool ⟨initial, hv0, rfl⟩ hsel
          rw [hfc] at hcnt
          obtain ⟨hraise, hfilter⟩ := verify_ok_parts cats base baseItems
            essential sols hbase hvsols
          have hbD := lookupCatD_of_lookupCat cats base baseItems hbase
          have hbmem := lookupCat_mem cats base baseItems hbase
          have hbnd : baseItems.Nodup := hnd _ hbmem
          have hnames : ((otherCats cats base).map Prod.fst).Nodup :=
            List.Nodup.sublist
              (List.Sublist.map Prod.fst (List.filter_sublist cats)) hkeys
          have hslen : samples.length = (otherCats cats base).length :=
            hsamp.length_eq
          have hmemg : ground_truth_grid baseItems.length samples
              ∈ allGrids baseItems (otherCats cats base) := by
            apply ground_truth_grid_mem _ _ _ hslen
            intro j hj
            have hj2 : j < (otherCats cats base).length := by omega
            have hcompj := (List.forall₂_iff_get.mp hsamp).2 j hj hj2
            simp only [List.get_eq_getElem] at hcompj
            exact ⟨hcompj.1, hcompj.2.2⟩
          have hdiff : allDifferentOk (otherCats cats base).length
              (ground_truth_grid baseItems.length samples) = true := by
            apply allDifferentOk_ground_truth _ _ _ hslen
            intro j hj
            have hj2 : j < (otherCats cats base).length := by omega
            have hcompj := (List.forall₂_iff_get.mp hsamp).2 j hj hj2
            simp only [List.get_eq_getElem] at hcompj
            exact ⟨hcompj.2.1, hcompj.2.2⟩
          have hall : essential.all (clueSat cats base baseItems
              ((otherCats cats base).map (·.1))
              (ground_truth_grid baseItems.length samples)) = true := by
            rw [List.all_eq_true]
            intro c hc
            exact (clue_ok_of_mem_pool cats base baseItems samples hbase hkeys
              hnd hdisj hsamp (hesub c hc)).2
          have hmemf : ground_truth_grid baseItems.length samples ∈ sols := by
            rw [hfilter, List.mem_filter]
            refine ⟨hmemg, ?_⟩
            rw [Bool.and_eq_true]
            exact ⟨hdiff, hall⟩
          obtain ⟨a, ha⟩ := List.length_eq_one.mp hcnt.symm
          rw [ha, List.mem_singleton] at hmemf
          rw [hclues, hvsols, ha, ← hmemf, hgt,
            gridOfGroundTruth_eq cats base baseItems samples hbD hbnd hnames
              hslen]

/-- Witness for C1, at a concrete emitted puzzle of the template `cats2`. -/
theorem emitted_puzzle_unique_solution_witness :
    puzzleA.ground_truth_solution = create_ground_truth cats2 "P" samplesA
    ∧ verify_solution cats2 "P" puzzleA.structured_clues_used
      = .ok [gridOfGroundTruth puzzleA.ground_truth_solution ["A", "B"]
          ((otherCats cats2 "P").map Prod.fst)] :=
  emitted_puzzle_has_unique_solution_equal_to_ground_truth "p" cats2 "P"
    ["A", "B"] samplesA poolA (fun _ => 0) 1 puzzleA rfl (by decide)
    (by decide) (by decide)
    (List.Forall₂.cons ⟨by decide, by decide, by decide⟩ List.Forall₂.nil)
    (by decide) rfl

lemma clue_true_of_mem_pool (cats : Cats) (base : String)
    (baseItems : List String) (samples : List (List String))
    (hbase : lookupCat cats base = some baseItems)
    (hkeys : (cats.map Prod.fst).Nodup)
    (hnd : ∀ c ∈ cats, c.2.Nodup)
    (hdisj : ∀ c1 ∈ cats, ∀ c2 ∈ cats, ∀ v, v ∈ c1.2 → v ∈ c2.2 → c1.1 = c2.1)
    (hsamp : List.Forall₂ (fun (s : List String) (c : String × List String) =>
        (∀ x ∈ s, x ∈ c.2) ∧ s.Nodup ∧ s.length = baseItems.length)
      samples (otherCats cats base))
    {clue : Clue}
    (hc : clue ∈ generate_all_possible_clues
        (create_ground_truth cats base samples) cats base) :
    clue_true_under (create_ground_truth cats base samples) clue = true := by
  have hbD := lookupCatD_of_lookupCat cats base baseItems hbase
  have hbmem := lookupCat_mem cats base baseItems hbase
  have hbnd : baseItems.Nodup := hnd _ hbmem
  have hnames : ((otherCats cats base).map Prod.fst).Nodup :=
    List.Nodup.sublist (List.Sublist.map Prod.fst (List.filter_sublist cats))
      hkeys
  obtain ⟨hslen, hcomp⟩ := List.forall₂_iff_get.mp hsamp
  unfold generate_all_possible_clues at hc
  dsimp only at hc
  rw [hbD, List.mem_flatMap] at hc
  obtain ⟨b, hb, hcb⟩ := hc
  obtain ⟨⟨i, hi⟩, hbi⟩ := List.mem_iff_get.mp hb
  subst hbi
  have hrow : gtRow (create_ground_truth cats base samples)
      (baseItems.get ⟨i, hi⟩)
      = ((otherCats cats base).zip samples).map
          (fun cs => (cs.1.1, cs.2.getD i "")) :=
    gtRow_create cats base samples baseItems hbD hbnd i hi
  rw [hrow, List.mem_append] at hcb
  have hvalsmem : ∀ (k : Nat) (hk : k < (otherCats cats base).length),
      samples[k].getD i ""
        ∈ assignedValues (create_ground_truth cats base samples)
          (baseItems.get ⟨i, hi⟩) := by
    intro k hk
    have hk2 : k < samples.length := by omega
    unfold assignedValues
    rw [hrow, List.map_map, List.mem_map]
    refine ⟨((otherCats cats base)[k], samples[k]), ?_, rfl⟩
    have hkz : k < ((otherCats cats base).zip samples).length := by
      simp only [List.length_zip]
      omega
    have := List.getElem_mem hkz
    rw [List.getElem_zip] at this
    exact this
  have hvalchar : ∀ v : String,
      v ∈ assignedValues (create_ground_truth cats base samples)
        (baseItems.get ⟨i, hi⟩) →
      ∃ (t : Nat) (ht : t < (otherCats cats base).length),
        v = samples[t].getD i "" := by
    intro v hv
    unfold assignedValues at hv
    rw [hrow, List.map_map, List.mem_map] at hv
    obtain ⟨cs, hcs, hveq⟩ := hv
    obtain ⟨⟨t, htz⟩, hcst⟩ := List.mem_iff_get.mp hcs
    have ht : t < (otherCats cats base).length := by
      have := htz
      simp only [List.length_zip] at this
      omega
    refine ⟨t, ht, ?_⟩
    rw [← hveq, ← hcst, List.get_zip]
    simp only [List.get_eq_getElem]
    rfl
  have hcompk : ∀ (k : Nat) (hk : k < (otherCats cats base).length),
      (∀ x ∈ samples[k], x ∈ (otherCats cats base)[k].2)
      ∧ samples[k].Nodup ∧ samples[k].length = baseItems.length := by
    intro k hk
    have hk2 : k < samples.length := by omega
    have := hcomp k hk2 hk
    simpa only [List.get_eq_getElem] using this
  have hvalin : ∀ (k : Nat) (hk : k < (otherCats cats base).length),
      samples[k].getD i "" ∈ (otherCats cats base)[k].2 := by
    intro k hk
    have h3 := (hcompk k hk).2.2
    have hib : i < samples[k].length := by omega
    rw [List.getD_eq_getElem _ _ hib]
    exact (hcompk k hk).1 _ (List.getElem_mem hib)
  rcases hcb with hpn | hlink
  · rw [List.mem_flatMap] at hpn
    obtain ⟨cv, hcv, hcl⟩ := hpn
    rw [List.mem_map] at hcv
    obtain ⟨cs, hcs, hcveq⟩ := hcv
    obtain ⟨⟨k, hkz⟩, hcsk⟩ := List.mem_iff_get.mp hcs
    have hk : k < (otherCats cats base).length := by
      have := hkz
      simp only [List.length_zip] at this
      omega
    have hk2 : k < samples.length := by
      have := hkz
      simp only [List.length_zip] at this
      omega
    have hcs_eq : cs = ((otherCats cats base)[k], samples[k]) := by
      rw [← hcsk, List.get_zip]
      simp only [List.get_eq_getElem]
    rw [hcs_eq] at hcveq
    have hcv1 : cv.1 = (otherCats cats base)[k].1 := by rw [← hcveq]
    have hcv2 : cv.2 = samples[k].getD i "" := by rw [← hcveq]
    rcases List.mem_cons.mp hcl with hclpos | hclneg
    · subst hclpos
      unfold clue_true_under
      rw [if_pos (by rfl)]
      dsimp only
      have hmem := hvalsmem k hk
      rw [← hcv2] at hmem
      simpa using hmem
    · rw [List.mem_map] at hclneg
      obtain ⟨o, ho, hclo⟩ := hclneg
      rw [List.mem_filter] at ho
      obtain ⟨homem, hone⟩ := ho
      rw [hcv1] at homem
      have hlk : lookupCatD cats ((otherCats cats base)[k].1)
          = (otherCats cats base)[k].2 :=
        lookupCatD_of_lookupCat _ _ _
          (lookupCat_of_mem cats hkeys _
            (List.mem_of_mem_filter (List.getElem_mem hk)))
      rw [hlk] at homem
      subst hclo
      unfold clue_true_under
      rw [if_neg (by simp), if_pos (by rfl)]
      dsimp only
      have hnotin : o ∉ assignedValues (create_ground_truth cats base samples)
          (baseItems.get ⟨i, hi⟩) := by
        intro hin
        obtain ⟨t, ht, hto⟩ := hvalchar o hin
        have hot : o ∈ (otherCats cats base)[t].2 := by
          rw [hto]
          exact hvalin t ht
        have hnameeq : (otherCats cats base)[t].1
            = (otherCats cats base)[k].1 := by
          exact hdisj _ (List.mem_of_mem_filter (List.getElem_mem ht)) _
            (List.mem_of_mem_filter (List.getElem_mem hk)) o hot homem
        have htk : t = k := by
          apply nodup_getElem_inj ((otherCats cats base).map Prod.fst) hnames
            t k (by simpa using ht) (by simpa using hk)
          simp only [List.getElem_map]
          exact hnameeq
        subst htk
        rw [hto, ← hcv2] at hone
        simp at hone
      simpa using hnotin
  · rw [List.mem_map] at hlink
    obtain ⟨p, hp, hclp⟩ := hlink
    obtain ⟨j1, j2, hj12, hj2len, hp1, hp2⟩ := mem_pairsOf hp
    have hlenvals : ((((otherCats cats base).zip samples).map
        (fun cs => (cs.1.1, cs.2.getD i ""))).map (fun cv => cv.2)).length
        = (otherCats cats base).length := by
      simp only [List.length_map, List.length_zip]
      omega
    have hj2' : j2 < (otherCats cats base).length := by
      rw [← hlenvals]
      simpa using hj2len
    have hj1' : j1 < (otherCats cats base).length := by omega
    have hvals : ∀ (t : Nat) (ht : t < (otherCats cats base).length),
        ((((otherCats cats base).zip samples).map
          (fun cs => (cs.1.1, cs.2.getD i ""))).map (fun cv => cv.2)).getD t ""
        = samples[t].getD i "" := by
      intro t ht
      have ht2 : t < samples.length := by omega
      rw [List.getD_eq_getElem _ _ (by rw [hlenvals]; exact ht)]
      simp [List.getElem_zip]
    rw [hvals j1 hj1'] at hp1
    rw [hvals j2 hj2'] at hp2
    subst hclp
    unfold clue_true_under
    rw [if_neg (by simp), if_neg (by simp), if_pos (by rfl)]
    dsimp only
    rw [List.any_eq_true]
    have hilen : i < (lookupCatD cats base).length := by rw [hbD]; exact hi
    refine ⟨(baseItems.get ⟨i, hi⟩,
      gtRow (create_ground_truth cats base samples)
        (baseItems.get ⟨i, hi⟩)), ?_, ?_⟩
    · unfold create_ground_truth gtRow
      dsimp only
      rw [hbD]
      rw [find?_zip_self baseItems _ i hbnd (by simp) hi]
      have hmem : (baseItems.get ⟨i, hi⟩,
          ((List.range baseItems.length).map (fun ii =>
            ((otherCats cats base).zip samples).map
              (fun cs => (cs.1.1, cs.2.getD ii "")))).get ⟨i, by simpa using hi⟩)
          ∈ baseItems.zip ((List.range baseItems.length).map (fun ii =>
            ((otherCats cats base).zip samples).map
              (fun cs => (cs.1.1, cs.2.getD ii "")))) := by
        have hiz : i < (baseItems.zip ((List.range baseItems.length).map
            (fun ii => ((otherCats cats base).zip samples).map
              (fun cs => (cs.1.1, cs.2.getD ii ""))))).length := by
          simp only [List.length_zip, List.length_map, List.length_range]
          omega
        have := List.getElem_mem hiz
        rw [List.getElem_zip] at this
        simpa only [List.get_eq_getElem] using this
      exact hmem
    · rw [Bool.and_eq_true]
      constructor
      · rw [hrow, List.map_map]
        have h1 := hvalsmem j1 hj1'
        unfold assignedValues at h1
        rw [hrow, List.map_map] at h1
        rw [← hp1] at h1
        simpa using h1
      · rw [hrow, List.map_map]
        have h2 := hvalsmem j2 hj2'
        unfold assignedValues at h2
        rw [hrow, List.map_map] at h2
        rw [← hp2] at h2
        simpa using h2

/-- C2: every clue in the clue set of an emitted puzzle evaluates to true
under the emitted ground truth — positive clues name an assigned value,
negative clues name a non-assigned value, and link clues pair two values
assigned to the same base entity. -/
theorem emitted_puzzle_clues_true_under_ground_truth
    (idPref : String) (cats : Cats) (base : String) (baseItems : List String)
    (samples : List (List String)) (pool : List Clue) (picks : Nat → Nat)
    (idx : Nat) (p : Puzzle)
    (hbase : lookupCat cats base = some baseItems)
    (hkeys : (cats.map Prod.fst).Nodup)
    (hnd : ∀ c ∈ cats, c.2.Nodup)
    (hdisj : ∀ c1 ∈ cats, ∀ c2 ∈ cats, ∀ v, v ∈ c1.2 → v ∈ c2.2 → c1.1 = c2.1)
    (hsamp : List.Forall₂ (fun (s : List String) (c : String × List String) =>
        (∀ x ∈ s, x ∈ c.2) ∧ s.Nodup ∧ s.length = baseItems.length)
      samples (otherCats cats base))
    (hpool : ∀ c ∈ pool, c ∈ generate_all_possible_clues
        (create_ground_truth cats base samples) cats base)
    (hgen : generate_puzzle_from_template idPref cats base samples pool picks
      idx = .ok (some p)) :
    ∀ c ∈ p.structured_clues_used,
      clue_true_under p.ground_truth_solution c = true := by
  unfold generate_puzzle_from_template at hgen
  cases hv0 : verify_solution cats base [] with
  | error e => rw [hv0] at hgen; exact absurd hgen (by simp)
  | ok initial =>
    rw [hv0] at hgen
    dsimp only at hgen
    by_cases hi0 : initial.isEmpty
    · rw [if_pos hi0] at hgen
      exact absurd hgen (by simp)
    · rw [if_neg hi0] at hgen
      cases hsel : selectLoop cats base (pool.length * 2) (pool.length * 2) 0
          [] pool initial.length picks with
      | error e => rw [hsel] at hgen; exact absurd hgen (by simp)
      | ok r =>
        obtain ⟨essential, finalCount, att⟩ := r
        rw [hsel] at hgen
        dsimp only at hgen
        by_cases hf : (finalCount != 1) = true
        · rw [if_pos hf] at hgen
          exact absurd hgen (by simp)
        · rw [if_neg hf] at hgen
          have hrec := Option.some.inj (Except.ok.inj hgen)
          have hclues : p.structured_clues_used = essential := by rw [← hrec]
          have hgt : p.ground_truth_solution
              = create_ground_truth cats base samples := by rw [← hrec]
          obtain ⟨hesub, -⟩ := selectLoop_invariant cats base
            (generate_all_possible_clues
              (create_ground_truth cats base samples) cats base)
            (pool.length * 2) (pool.length * 2) 0 [] pool initial.length picks
            essential finalCount att (by intro c hc; exact absurd hc (by simp))
            hpool ⟨initial, hv0, rfl⟩ hsel
          intro c hc
          rw [hclues] at hc
          rw [hgt]
          exact clue_true_of_mem_pool cats base baseItems samples hbase hkeys
            hnd hdisj hsamp (hesub c hc)

/-- Witness for C2, at a concrete emitted puzzle of the template `cats2`. -/
theorem emitted_puzzle_clues_true_witness :
    puzzleA.structured_clues_used.all
      (fun c => clue_true_under puzzleA.ground_truth_solution c) = true := by
  rw [List.all_eq_true]
  intro c hc
  exact emitted_puzzle_clues_true_under_ground_truth "p" cats2 "P" ["A", "B"]
    samplesA poolA (fun _ => 0) 1 puzzleA rfl (by decide) (by decide)
    (by decide)
    (List.Forall₂.cons ⟨by decide, by decide, by decide⟩ List.Forall₂.nil)
    (by decide) rfl c hc

end LogicGrid
namespace Sudoku

/-- Counterexample to C4: the validator accepts a 16-digit grid whose
rows, columns and boxes contain the digits 5..8 — four distinct values
each, but not the values 1..4 the claim promises. -/
theorem validator_accepts_grid_without_values_one_to_four :
    is_valid_sudoku_solution "5678785665878765" = true
    ∧ grid4_units_exactly_one_to_four "5678785665878765" = false := by
  exact ⟨by decide, by decide⟩

lemma dedup_length_beq_iff (l : List Nat) (n : Nat) (hl : l.length = n) :
    (l.dedup.length == n) = true ↔ l.Nodup := by
  rw [beq_iff_eq]
  constructor
  · intro h
    have h2 : l.dedup.length = l.length := by omega
    have h3 := List.Sublist.eq_of_length (List.dedup_sublist l) h2
    rw [← h3]
    exact List.nodup_dedup l
  · intro h
    rw [List.dedup_eq_self.mpr h, hl]

lemma nodup_of_unit_is_one_to_four (l : List Nat)
    (h : unit_is_one_to_four l = true) : l.Nodup := by
  unfold unit_is_one_to_four at h
  rw [Bool.and_eq_true, beq_iff_eq, List.all_eq_true] at h
  obtain ⟨hlen, hcnt⟩ := h
  have hsub : [1, 2, 3, 4] ⊆ l := by
    intro v hv
    have hc := hcnt v hv
    rw [beq_iff_eq] at hc
    exact List.count_pos_iff.mp (by omega)
  have hsp : List.Subperm [1, 2, 3, 4] l :=
    List.subperm_of_subset (by decide) hsub
  have hperm : List.Perm [1, 2, 3, 4] l :=
    hsp.perm_of_length_le (by rw [hlen]; simp)
  exact hperm.nodup (by decide)

/-- C4 (amended): a 16-character string is accepted by
`is_valid_sudoku_solution` exactly when all its characters are digits,
none is `'0'`, and every row, column and 2x2 box of its 4x4 grid holds
four pairwise-distinct values — the digits need not be 1..4; and every
`'0'`-free digit string whose rows, columns and boxes hold exactly the
values 1..4 once each is accepted. -/
theorem validator_accepts_iff_units_distinct (s : String)
    (hlen : s.toList.length = 16) :
    (is_valid_sudoku_solution s = true ↔
      (s.toList.all Char.isDigit = true
        ∧ s.toList.contains '0' = false
        ∧ (∀ row ∈ sudokuGrid s.toList 4, row.Nodup)
        ∧ (∀ c ∈ List.range 4, (colCells (sudokuGrid s.toList 4) 4 c).Nodup)
        ∧ (∀ bi ∈ List.range 2, ∀ bj ∈ List.range 2,
            (boxCells (sudokuGrid s.toList 4) 2 bi bj).Nodup)))
    ∧ (s.toList.all Char.isDigit = true → s.toList.contains '0' = false →
        grid4_units_exactly_one_to_four s = true →
        is_valid_sudoku_solution s = true) := by
  have hrowlen : ∀ row ∈ sudokuGrid s.toList 4, row.length = 4 := by
    intro row hr
    unfold sudokuGrid at hr
    rw [List.mem_map] at hr
    obtain ⟨i, -, hri⟩ := hr
    rw [← hri]
    simp
  have hrow_iff : rowsOk (sudokuGrid s.toList 4) 4 = true
      ↔ ∀ row ∈ sudokuGrid s.toList 4, row.Nodup := by
    unfold rowsOk
    rw [List.all_eq_true]
    constructor
    · intro h row hr
      exact (dedup_length_beq_iff row 4 (hrowlen row hr)).mp (h row hr)
    · intro h row hr
      exact (dedup_length_beq_iff row 4 (hrowlen row hr)).mpr (h row hr)
  have hcol_iff : colsOk (sudokuGrid s.toList 4) 4 = true
      ↔ ∀ c ∈ List.range 4, (colCells (sudokuGrid s.toList 4) 4 c).Nodup := by
    unfold colsOk
    rw [List.all_eq_true]
    constructor
    · intro h c hc
      exact (dedup_length_beq_iff (colCells (sudokuGrid s.toList 4) 4 c) 4
        (by simp [colCells])).mp (h c hc)
    · intro h c hc
      exact (dedup_length_beq_iff (colCells (sudokuGrid s.toList 4) 4 c) 4
        (by simp [colCells])).mpr (h c hc)
  have hbox_iff : boxesOk (sudokuGrid s.toList 4) 4 2 = true
      ↔ ∀ bi ∈ List.range 2, ∀ bj ∈ List.range 2,
          (boxCells (sudokuGrid s.toList 4) 2 bi bj).Nodup := by
    unfold boxesOk
    rw [List.all_eq_true]
    constructor
    · intro h bi hbi bj hbj
      have hb := h bi hbi
      rw [List.all_eq_true] at hb
      exact (dedup_length_beq_iff (boxCells (sudokuGrid s.toList 4) 2 bi bj) 4
        (by simp [boxCells, List.range_succ])).mp (hb bj hbj)
    · intro h bi hbi
      rw [List.all_eq_true]
      intro bj hbj
      exact (dedup_length_beq_iff (boxCells (sudokuGrid s.toList 4) 2 bi bj) 4
        (by simp [boxCells, List.range_succ])).mpr (h bi hbi bj hbj)
  have hdispatch : is_valid_sudoku_solution s
      = (if (!(s.toList.all Char.isDigit) || s.toList.contains '0') = true
          then false
          else rowsOk (sudokuGrid s.toList 4) 4
            && colsOk (sudokuGrid s.toList 4) 4
            && boxesOk (sudokuGrid s.toList 4) 4 2) := by
    unfold is_valid_sudoku_solution
    dsimp only
    rw [if_neg (by omega), if_pos hlen]
  have hiff : is_valid_sudoku_solution s = true ↔
      (s.toList.all Char.isDigit = true
        ∧ s.toList.contains '0' = false
        ∧ (∀ row ∈ sudokuGrid s.toList 4, row.Nodup)
        ∧ (∀ c ∈ List.range 4, (colCells (sudokuGrid s.toList 4) 4 c).Nodup)
        ∧ (∀ bi ∈ List.range 2, ∀ bj ∈ List.range 2,
            (boxCells (sudokuGrid s.toList 4) 2 bi bj).Nodup)) := by
    rw [hdispatch]
    by_cases hguard : (!(s.toList.all Char.isDigit)
        || s.toList.contains '0') = true
    · rw [if_pos hguard]
      rw [Bool.or_eq_true, Bool.not_eq_eq_eq_not, Bool.not_true] at hguard
      constructor
      · intro h
        exact absurd h (by simp)
      · rintro ⟨hd, h0, -⟩
        exfalso
        rcases hguard with h | h
        · rw [hd] at h
          exact absurd h (by simp)
        · rw [h0] at h
          exact absurd h (by simp)
    · rw [if_neg hguard]
      rw [Bool.or_eq_true, Bool.not_eq_eq_eq_not, Bool.not_true] at hguard
      push_neg at hguard
      obtain ⟨hd, h0⟩ := hguard
      have hd2 : s.toList.all Char.isDigit = true := by
        cases hx : s.toList.all Char.isDigit
        · exact absurd hx hd
        · rfl
      have h02 : s.toList.contains '0' = false := by
        cases hx : s.toList.contains '0'
        · rfl
        · exact absurd hx h0
      rw [Bool.and_eq_true, Bool.and_eq_true]
      constructor
      · rintro ⟨⟨hr, hc⟩, hb⟩
        exact ⟨hd2, h02, hrow_iff.mp hr, hcol_iff.mp hc, hbox_iff.mp hb⟩
      · rintro ⟨-, -, hr, hc, hb⟩
        exact ⟨⟨hrow_iff.mpr hr, hcol_iff.mpr hc⟩, hbox_iff.mpr hb⟩
  refine ⟨hiff, ?_⟩
  intro hdig h0 hg
  apply hiff.mpr
  unfold grid4_units_exactly_one_to_four at hg
  dsimp only at hg
  rw [Bool.and_eq_true, Bool.and_eq_true] at hg
  obtain ⟨⟨h1, h2⟩, h3⟩ := hg
  rw [List.all_eq_true] at h1 h2 h3
  refine ⟨hdig, h0,
    fun row hr => nodup_of_unit_is_one_to_four _ (h1 row hr),
    fun c hc => nodup_of_unit_is_one_to_four _ (h2 c hc),
    fun bi hbi bj hbj => ?_⟩
  have hb := h3 bi hbi
  rw [List.all_eq_true] at hb
  exact nodup_of_unit_is_one_to_four _ (hb bj hbj)

/-- Witness for C4 (amended): a concrete grid over 1..4 is accepted, and
a 16-character digit string containing a `'0'` is rejected even though no
length or digit check fails. -/
theorem validator_accepts_units_witness :
    is_valid_sudoku_solution "1234341221434321" = true
    ∧ is_valid_sudoku_solution "0234341221434321" = false := by
  constructor
  · exact (validator_accepts_iff_units_distinct "1234341221434321"
      (by decide)).2 (by decide) (by decide) (by decide)
  · cases hval : is_valid_sudoku_solution "0234341221434321"
    · rfl
    · have h := (validator_accepts_iff_units_distinct "0234341221434321"
        (by decide)).1.mp hval
      exact absurd h.2.1 (by decide)

lemma toString_digit (v : Nat) (h1 : 1 ≤ v) (h9 : v ≤ 9) :
    (toString v).data = [Char.ofNat (48 + v)] := by
  interval_cases v <;> rfl

lemma charToInt_digit (v : Nat) (h9 : v ≤ 9) :
    charToInt (Char.ofNat (48 + v)) = v := by
  interval_cases v <;> rfl

lemma digit_char_props (v : Nat) (h1 : 1 ≤ v) (h9 : v ≤ 9) :
    (Char.ofNat (48 + v)).isDigit = true ∧ ¬ Char.ofNat (48 + v) = '0' := by
  interval_cases v <;> exact ⟨rfl, by decide⟩

lemma foldl_append_data (L : List String) :
    ∀ acc : String, (L.foldl (fun r s => r ++ s) acc).data
      = acc.data ++ (L.map String.data).flatten := by
  induction L with
  | nil => intro acc; simp
  | cons x xs ih =>
    intro acc
    rw [List.foldl_cons, ih, String.data_append]
    simp

lemma join_data (L : List String) :
    (String.join L).data = (L.map String.data).flatten := by
  unfold String.join
  rw [foldl_append_data]
  rfl

lemma flatten_map_singleton {α β : Type} (l : List α) (f : α → β) :
    (l.map (fun x => [f x])).flatten = l.map f := by
  induction l with
  | nil => rfl
  | cons x xs ih => simp [ih]

lemma flatMap_congr {α β : Type} (l : List α) (f g : α → List β)
    (h : ∀ a ∈ l, f a = g a) : l.flatMap f = l.flatMap g := by
  induction l with
  | nil => rfl
  | cons x xs ih =>
    rw [List.flatMap_cons, List.flatMap_cons, h x (by simp),
      ih (fun a ha => h a (by simp [ha]))]

lemma flatten_flatMap_singleton {α β γ : Type} (l : List α) (g : α → List β)
    (f : α → β → γ) :
    (l.flatMap (fun a => (g a).map (fun b => [f a b]))).flatten
      = (l.map (fun a => (g a).map (f a))).flatten := by
  induction l with
  | nil => rfl
  | cons x xs ih =>
    rw [List.flatMap_cons, List.map_cons, List.flatten_append,
      List.flatten_cons, ih, flatten_map_singleton]

lemma solve_out_data (size : Nat) (m : Nat → Nat → Nat) (hs9 : size ≤ 9)
    (hm : ∀ i ∈ List.range size, ∀ j ∈ List.range size,
      1 ≤ m i j ∧ m i j ≤ size) :
    (String.join ((List.range size).flatMap (fun i =>
        (List.range size).map (fun j => toString (m i j))))).data
      = ((List.range size).map (fun i => (List.range size).map (fun j =>
          Char.ofNat (48 + m i j)))).flatten := by
  rw [join_data, List.map_flatMap]
  rw [flatMap_congr (List.range size) _
    (fun i => (List.range size).map (fun j => [Char.ofNat (48 + m i j)]))
    (by
      intro i hi
      rw [List.map_map]
      apply List.map_congr_left
      intro j hj
      exact toString_digit (m i j) (hm i hi j hj).1
        (le_trans (hm i hi j hj).2 hs9))]
  exact flatten_flatMap_singleton (List.range size) (fun _ => List.range size)
    (fun i j => Char.ofNat (48 + m i j))

lemma flatten_const_length {α : Type} (rows : List (List α)) (L : Nat)
    (h : ∀ r ∈ rows, r.length = L) :
    rows.flatten.length = rows.length * L := by
  induction rows with
  | nil => simp
  | cons r rs ih =>
    rw [List.flatten_cons, List.length_append, h r (by simp),
      ih (fun r2 hr2 => h r2 (by simp [hr2])), List.length_cons]
    ring

lemma flatten_const_getD {α : Type} (d : α) (rows : List (List α)) (L : Nat)
    (h : ∀ r ∈ rows, r.length = L) :
    ∀ (i j : Nat), i < rows.length → j < L →
    rows.flatten.getD (i * L + j) d = (rows.getD i []).getD j d := by
  induction rows with
  | nil => intro i j hi hj; exact absurd hi (by simp)
  | cons r rs ih =>
    intro i j hi hj
    have hr : r.length = L := h r (by simp)
    cases i with
    | zero =>
      rw [List.flatten_cons, Nat.zero_mul, Nat.zero_add,
        List.getD_append _ _ _ _ (by omega)]
      rfl
    | succ i =>
      rw [List.flatten_cons,
        List.getD_append_right _ _ _ _ (by rw [hr, Nat.succ_mul]; omega)]
      have harith : (i + 1) * L + j - r.length = i * L + j := by
        rw [hr, Nat.succ_mul]
        omega
      rw [harith,
        ih (fun r2 hr2 => h r2 (by simp [hr2])) i j (by simpa using hi) hj]
      rfl

lemma flatMap_map_length {α : Type} (a b : Nat) (f : Nat → Nat → α) :
    ((List.range a).flatMap (fun i => (List.range b).map (f i))).length
      = a * b := by
  rw [List.length_flatMap]
  have hconst : (List.range a).map
      (List.length ∘ fun i => (List.range b).map (f i))
      = List.replicate a b := by
    have : (List.length ∘ fun i => (List.range b).map (f i))
        = fun _ => b := by
      funext i
      simp
    rw [this]
    rw [show (List.range a).map (fun _ => b)
      = List.replicate (List.range a).length b from List.map_const _ b]
    rw [List.length_range]
  rw [hconst, List.sum_replicate, smul_eq_mul]

lemma isDigit_toNat_bounds (c : Char) (h : c.isDigit = true) :
    48 ≤ c.toNat ∧ c.toNat ≤ 57 := by
  unfold Char.isDigit at h
  rw [Bool.and_eq_true] at h
  obtain ⟨h1, h2⟩ := h
  simp only [decide_eq_true_eq] at h1 h2
  exact ⟨h1, h2⟩

lemma sudokuGrid_cell (cs : List Char) (size : Nat) (i j : Nat)
    (hi : i < size) (hj : j < size) :
    ((sudokuGrid cs size).getD i []).getD j 0
      = charToInt (cs.getD (i * size + j) '0') := by
  unfold sudokuGrid
  have hrow : ((List.range size).map (fun i2 => (List.range size).map
      (fun j2 => charToInt (cs.getD (i2 * size + j2) '0')))).getD i []
      = (List.range size).map (fun j2 => charToInt (cs.getD (i * size + j2) '0')) := by
    rw [List.getD_eq_getElem _ _ (by simpa using hi)]
    simp
  rw [hrow, List.getD_eq_getElem _ _ (by simpa using hj)]
  simp

lemma solve_core (size box : Nat) (cs : List Char) (m : Nat → Nat → Nat)
    (hsb : box * box = size) (hs9 : size ≤ 9) (hpos : 0 < size)
    (hlen : cs.length = size * size)
    (hdig : cs.all Char.isDigit = true)
    (hm : z3_model_ok size box (sudokuGrid cs size) m)
    (out : String)
    (hout : out = String.join ((List.range size).flatMap (fun i =>
      (List.range size).map (fun j => toString (m i j))))) :
    out.data.length = size * size
    ∧ (∀ k, k < size * size → cs.getD k '0' ≠ '0' →
        out.data.getD k '0' = cs.getD k '0')
    ∧ out.data.all Char.isDigit = true
    ∧ out.data.contains '0' = false
    ∧ (∀ c ∈ out.data, 1 ≤ charToInt c ∧ charToInt c ≤ size)
    ∧ rowsOk (sudokuGrid out.data size) size = true
    ∧ colsOk (sudokuGrid out.data size) size = true
    ∧ boxesOk (sudokuGrid out.data size) size box = true := by
  obtain ⟨hrange, hgiven, hrows, hcols, hboxes⟩ := hm
  have hmval : ∀ i ∈ List.range size, ∀ j ∈ List.range size,
      1 ≤ m i j ∧ m i j ≤ size := hrange
  have hdata : out.data = ((List.range size).map (fun i =>
      (List.range size).map (fun j => Char.ofNat (48 + m i j)))).flatten := by
    rw [hout]
    exact solve_out_data size m hs9 hmval
  have hrl : ∀ r ∈ (List.range size).map (fun i =>
      (List.range size).map (fun j => Char.ofNat (48 + m i j))),
      r.length = size := by
    intro r hr
    rw [List.mem_map] at hr
    obtain ⟨i, -, hri⟩ := hr
    rw [← hri]
    simp
  have hdl : out.data.length = size * size := by
    rw [hdata, flatten_const_length _ size hrl]
    simp
  have hcharat : ∀ k, k < size * size →
      out.data.getD k '0' = Char.ofNat (48 + m (k / size) (k % size)) := by
    intro k hk
    have hdiv : k / size < size := by
      rw [Nat.div_lt_iff_lt_mul hpos]
      omega
    have hmod : k % size < size := Nat.mod_lt _ hpos
    have hkeq : (k / size) * size + k % size = k := by
      rw [Nat.mul_comm]
      exact Nat.div_add_mod k size
    rw [hdata]
    conv_lhs => rw [← hkeq]
    rw [flatten_const_getD '0' _ size hrl (k / size) (k % size)
        (by simpa using hdiv) hmod]
    have hrowe : ((List.range size).map (fun i =>
        (List.range size).map (fun j => Char.ofNat (48 + m i j)))).getD
          (k / size) []
        = (List.range size).map (fun j => Char.ofNat (48 + m (k / size) j)) := by
      rw [List.getD_eq_getElem _ _ (by simpa using hdiv)]
      simp
    rw [hrowe, List.getD_eq_getElem _ _ (by simpa using hmod)]
    simp
  have hmval2 : ∀ i : Nat, i < size → ∀ j : Nat, j < size →
      1 ≤ m i j ∧ m i j ≤ 9 := by
    intro i hi j hj
    have := hrange i (List.mem_range.mpr hi) j (List.mem_range.mpr hj)
    omega
  have hgrid2 : ∀ i : Nat, i < size → ∀ j : Nat, j < size →
      charToInt (out.data.getD (i * size + j) '0') = m i j := by
    intro i hi j hj
    have hk : i * size + j < size * size := by
      have h1 : i + 1 ≤ size := hi
      have h2 : (i + 1) * size ≤ size * size := Nat.mul_le_mul_right _ h1
      rw [Nat.succ_mul] at h2
      omega
    have hdiveq : (i * size + j) / size = i := by
      rw [Nat.add_comm, Nat.mul_comm, Nat.add_mul_div_left _ _ hpos,
        Nat.div_eq_of_lt hj]
      omega
    have hmodeq : (i * size + j) % size = j := by
      rw [Nat.mul_comm, Nat.mul_add_mod]
      exact Nat.mod_eq_of_lt hj
    rw [hcharat (i * size + j) hk, hdiveq, hmodeq]
    exact charToInt_digit _ (hmval2 i hi j hj).2
  have hgrid : ∀ i : Nat, i < size → ∀ j : Nat, j < size →
      ((sudokuGrid out.data size).getD i []).getD j 0 = m i j := by
    intro i hi j hj
    rw [sudokuGrid_cell out.data size i j hi hj]
    exact hgrid2 i hi j hj
  have hmemchar : ∀ c ∈ out.data, ∃ i : Nat, ∃ j : Nat, i < size ∧ j < size
      ∧ c = Char.ofNat (48 + m i j) := by
    intro c hc
    rw [hdata, List.mem_flatten] at hc
    obtain ⟨r, hr, hcr⟩ := hc
    rw [List.mem_map] at hr
    obtain ⟨i, hi, hri⟩ := hr
    rw [← hri, List.mem_map] at hcr
    obtain ⟨j, hj, hcj⟩ := hcr
    exact ⟨i, j, List.mem_range.mp hi, List.mem_range.mp hj, hcj.symm⟩
  refine ⟨hdl, ?_, ?_, ?_, ?_, ?_, ?_, ?_⟩
  · intro k hk h0k
    have hkl : k < cs.length := by omega
    have hdigc : (cs.getD k '0').isDigit = true := by
      rw [List.getD_eq_getElem _ _ hkl]
      exact List.all_eq_true.mp hdig _ (List.getElem_mem hkl)
    have hbnds := isDigit_toNat_bounds _ hdigc
    have hdiv : k / size < size := by
      rw [Nat.div_lt_iff_lt_mul hpos]
      omega
    have hmod : k % size < size := Nat.mod_lt _ hpos
    have hcell : ((sudokuGrid cs size).getD (k / size) []).getD (k % size) 0
        = charToInt (cs.getD k '0') := by
      rw [sudokuGrid_cell cs size _ _ hdiv hmod]
      have hkeq : (k / size) * size + k % size = k := by
        rw [Nat.mul_comm]
        exact Nat.div_add_mod k size
      rw [hkeq]
    have htne : (cs.getD k '0').toNat ≠ 48 := by
      intro h
      apply h0k
      have hcc : (cs.getD k '0') = Char.ofNat 48 := by
        rw [← h, Char.ofNat_toNat]
      rw [hcc]
    have hcne : charToInt (cs.getD k '0') ≠ 0 := by
      unfold charToInt
      omega
    have hgv := hgiven (k / size) (List.mem_range.mpr hdiv) (k % size)
      (List.mem_range.mpr hmod) (by rw [hcell]; exact hcne)
    rw [hcell] at hgv
    rw [hcharat k hk, hgv]
    unfold charToInt
    rw [Nat.add_sub_cancel' hbnds.1, Char.ofNat_toNat]
  · rw [List.all_eq_true]
    intro c hc
    obtain ⟨i, j, hi, hj, hcij⟩ := hmemchar c hc
    rw [hcij]
    exact (digit_char_props _ (hmval2 i hi j hj).1 (hmval2 i hi j hj).2).1
  · have hno : ¬ ('0' ∈ out.data) := by
      intro hc
      obtain ⟨i, j, hi, hj, hcij⟩ := hmemchar '0' hc
      exact (digit_char_props _ (hmval2 i hi j hj).1 (hmval2 i hi j hj).2).2
        hcij.symm
    simpa using hno
  · intro c hc
    obtain ⟨i, j, hi, hj, hcij⟩ := hmemchar c hc
    have hb9 : m i j ≤ 9 := (hmval2 i hi j hj).2
    have hrng := hrange i (List.mem_range.mpr hi) j (List.mem_range.mpr hj)
    rw [hcij, charToInt_digit _ hb9]
    exact hrng
  · unfold rowsOk
    rw [List.all_eq_true]
    intro row hr
    unfold sudokuGrid at hr
    rw [List.mem_map] at hr
    obtain ⟨i, hi, hri⟩ := hr
    have hi' : i < size := List.mem_range.mp hi
    have hroweq : row = (List.range size).map (fun j => m i j) := by
      rw [← hri]
      apply List.map_congr_left
      intro j hj
      exact hgrid2 i hi' j (List.mem_range.mp hj)
    rw [hroweq]
    apply (dedup_length_beq_iff _ size (by simp)).mpr
    apply List.Nodup.map_on
    · intro j1 hj1 j2 hj2 heq
      by_contra hne
      exact hrows i (List.mem_range.mpr hi') j1 hj1 j2 hj2 hne heq
    · exact List.nodup_range size
  · unfold colsOk
    rw [List.all_eq_true]
    intro c hc
    have hc' : c < size := List.mem_range.mp hc
    have hcoleq : colCells (sudokuGrid out.data size) size c
        = (List.range size).map (fun r => m r c) := by
      unfold colCells
      apply List.map_congr_left
      intro r hr
      exact hgrid r (List.mem_range.mp hr) c hc'
    rw [hcoleq]
    apply (dedup_length_beq_iff _ size (by simp)).mpr
    apply List.Nodup.map_on
    · intro r1 hr1 r2 hr2 heq
      by_contra hne
      exact hcols c hc r1 hr1 r2 hr2 hne heq
    · exact List.nodup_range size
  · unfold boxesOk
    rw [List.all_eq_true]
    intro bi hbi
    rw [List.all_eq_true]
    intro bj hbj
    have hbi' : bi < box := List.mem_range.mp hbi
    have hbj' : bj < box := List.mem_range.mp hbj
    have hboxeq : boxCells (sudokuGrid out.data size) box bi bj
        = (List.range box).flatMap (fun i2 => (List.range box).map
            (fun j2 => m (bi * box + i2) (bj * box + j2))) := by
      unfold boxCells
      apply flatMap_congr
      intro i2 hi2
      apply List.map_congr_left
      intro j2 hj2
      have hi2' : i2 < box := List.mem_range.mp hi2
      have hj2' : j2 < box := List.mem_range.mp hj2
      have hrow_lt : bi * box + i2 < size := by
        have h1 : bi + 1 ≤ box := hbi'
        have h2 : (bi + 1) * box ≤ box * box := by
          rw [Nat.mul_comm box box]
          exact Nat.mul_le_mul_right _ h1
        rw [Nat.succ_mul] at h2
        omega
      have hcol_lt : bj * box + j2 < size := by
        have h1 : bj + 1 ≤ box := hbj'
        have h2 : (bj + 1) * box ≤ box * box := by
          rw [Nat.mul_comm box box]
          exact Nat.mul_le_mul_right _ h1
        rw [Nat.succ_mul] at h2
        omega
      exact hgrid _ hrow_lt _ hcol_lt
    rw [hboxeq]
    apply (dedup_length_beq_iff _ size
      (by rw [flatMap_map_length]; exact hsb)).mpr
    rw [List.nodup_flatMap]
    constructor
    · intro i2 hi2
      apply List.Nodup.map_on
      · intro j1 hj1 j2 hj2 heq
        by_contra hne
        exact hboxes bi hbi bj hbj i2 hi2 j1 hj1 i2 hi2 j2 hj2
          (by intro hcc; exact hne hcc.2) heq
      · exact List.nodup_range box
    · rw [List.pairwise_iff_get]
      intro a b hab
      have ha : (List.range box).get a = a.val := by simp
      have hb2 : (List.range box).get b = b.val := by simp
      rw [ha, hb2]
      intro x hxa hxb
      rw [List.mem_map] at hxa hxb
      obtain ⟨j1, hj1, hx1⟩ := hxa
      obtain ⟨j2, hj2, hx2⟩ := hxb
      have halt : a.val < box := by
        have := a.isLt
        simpa using this
      have hblt : b.val < box := by
        have := b.isLt
        simpa using this
      have hne : ¬(a.val = b.val ∧ j1 = j2) := by
        rintro ⟨h1, -⟩
        have h2 : a.val < b.val := hab
        omega
      exact hboxes bi hbi bj hbj a.val (List.mem_range.mpr halt) j1 hj1
        b.val (List.mem_range.mpr hblt) j2 hj2 hne (hx1.trans hx2.symm)

/-- C10: for an input string of length 16 or 81 consisting only of digits,
when the solver returns a model (so `solve_sudoku` returns a string rather
than `None`), the returned string has the same length, agrees with the
input at every position holding a non-zero digit, and every row, column
and box of the returned grid consists of pairwise-distinct values in the
range 1..size; for any other input length `solve_sudoku` raises a
`ValueError` and returns nothing. -/
theorem solve_sudoku_spec (s : String) (m : Nat → Nat → Nat) (out : String)
    (hdig : s.toList.all Char.isDigit = true)
    (hm : z3_model_ok (gridSize s.length) (boxSize s.length)
        (sudokuGrid s.toList (gridSize s.length)) m)
    (hres : solve_sudoku s (some m) = .ok (some out)) :
    (s.length = 81 ∨ s.length = 16)
    ∧ out.length = s.length
    ∧ (∀ k, k < s.length → s.toList.getD k '0' ≠ '0' →
        out.toList.getD k '0' = s.toList.getD k '0')
    ∧ (∀ c ∈ out.toList, 1 ≤ charToInt c ∧ charToInt c ≤ gridSize s.length)
    ∧ rowsOk (sudokuGrid out.toList (gridSize s.length))
        (gridSize s.length) = true
    ∧ colsOk (sudokuGrid out.toList (gridSize s.length))
        (gridSize s.length) = true
    ∧ boxesOk (sudokuGrid out.toList (gridSize s.length))
        (gridSize s.length) (boxSize s.length) = true
    ∧ (∀ t : String, ¬(t.length = 81 ∨ t.length = 16) →
        solve_sudoku t (some m)
          = .error "ValueError: Sudoku must have 16 (4x4) or 81 (9x9) digits") := by
  by_cases hl : s.length = 81 ∨ s.length = 16
  case neg =>
    exfalso
    unfold solve_sudoku at hres
    rw [if_neg hl] at hres
    exact absurd hres (by simp)
  case pos =>
    have hout : out = String.join ((List.range (gridSize s.length)).flatMap
        (fun i => (List.range (gridSize s.length)).map
          (fun j => toString (m i j)))) := by
      unfold solve_sudoku at hres
      rw [if_pos hl] at hres
      dsimp only at hres
      simp only [Except.ok.injEq, Option.some.injEq] at hres
      exact hres.symm
    have hsb : boxSize s.length * boxSize s.length = gridSize s.length := by
      rcases hl with h | h <;> rw [h] <;> rfl
    have hs9 : gridSize s.length ≤ 9 := by
      rcases hl with h | h <;> rw [h] <;> decide
    have hpos : 0 < gridSize s.length := by
      rcases hl with h | h <;> rw [h] <;> decide
    have hlen : s.toList.length = gridSize s.length * gridSize s.length := by
      have hd : s.toList.length = s.length := rfl
      rcases hl with h | h <;> rw [hd, h] <;> rfl
    have hcore := solve_core (gridSize s.length) (boxSize s.length) s.toList m
      hsb hs9 hpos hlen hdig hm out hout
    obtain ⟨hol, hagr, -, -, hin, hrows, hcols, hboxes⟩ := hcore
    have hol2 : out.length = s.length := by
      have hd : out.length = out.data.length := rfl
      rw [hd, hol, ← hlen]
      rfl
    refine ⟨hl, hol2, ?_, hin, hrows, hcols, hboxes, ?_⟩
    · intro k hk hne
      have hk2 : k < gridSize s.length * gridSize s.length := by
        rw [← hlen]
        exact hk
      exact hagr k hk2 hne
    · intro t ht
      unfold solve_sudoku
      rw [if_neg ht]

/-- Witness for C10: solving the empty 4x4 puzzle with a concrete model
gives a well-formed, valid answer, and a 5-character input raises. -/
theorem solve_sudoku_spec_witness :
    (("0000000000000000" : String).length = 81
      ∨ ("0000000000000000" : String).length = 16)
    ∧ ("1234341221434321" : String).length
        = ("0000000000000000" : String).length
    ∧ rowsOk (sudokuGrid ("1234341221434321" : String).toList
        (gridSize ("0000000000000000" : String).length))
        (gridSize ("0000000000000000" : String).length) = true
    ∧ solve_sudoku "00000" (some w4)
        = .error "ValueError: Sudoku must have 16 (4x4) or 81 (9x9) digits" := by
  have h := solve_sudoku_spec "0000000000000000" w4 "1234341221434321"
    (by decide)
    (by refine ⟨?_, ?_, ?_, ?_, ?_⟩ <;> decide)
    (by rfl)
  exact ⟨h.1, h.2.1, h.2.2.2.2.1, h.2.2.2.2.2.2.2 "00000" (by decide)⟩

end Sudoku
